import Mathlib

/-!
Verification of the Guesslytics feed-pagination-and-incremental-sync engine
(`src/lib/api.ts`) against its natural-language specification.

The TypeScript source is shallowly embedded: network calls become oracle
functions passed as parameters, the mutable key-value store becomes explicit
state threading, JSON payload parsing becomes a tagged inductive type whose
constructors record whether a payload parses, and JavaScript truthiness of
strings is modelled explicitly (the empty string is falsy).
-/

namespace Guesslytics

/-! ## Data model (`src/types/index.ts`) -/

/-- One rating data point (`RatingEntry` in the source): a timestamp (ms since
epoch), the rating after the game, and the id of the game it came from. -/
structure RatingEntry where
  timestamp : Nat
  rating : Int
  gameId : String
  deriving DecidableEq, Repr

/-- Four parallel rating series (`RatingHistory` in the source). -/
structure RatingHistory where
  overall : List RatingEntry
  moving : List RatingEntry
  noMove : List RatingEntry
  nmpz : List RatingEntry
  deriving DecidableEq, Repr

/-- The three sub-mode keys of `RatingHistory` (besides `overall`). -/
inductive ModeKey where
  | moving
  | noMove
  | nmpz
  deriving DecidableEq, Repr

/-- Embeds `getModeKey` from `src/lib/utils.ts`: maps the competitive game
mode string of the API to the sub-mode sequence it belongs to. -/
def getModeKey (competitiveGameMode : String) : Option ModeKey :=
  if competitiveGameMode = "StandardDuels" then some ModeKey.moving
  else if competitiveGameMode = "NoMoveDuels" then some ModeKey.noMove
  else if competitiveGameMode = "NmpzDuels" then some ModeKey.nmpz
  else none

/-- The comparator used by `processGames` when re-sorting each sequence:
ascending by timestamp (`new Date(a.timestamp) - new Date(b.timestamp)`). -/
def tsLe (a b : RatingEntry) : Prop := a.timestamp ≤ b.timestamp

instance : DecidableRel tsLe := fun a b => inferInstanceAs (Decidable (a.timestamp ≤ b.timestamp))

instance : IsTotal RatingEntry tsLe := ⟨fun a b => Nat.le_total a.timestamp b.timestamp⟩

instance : IsTrans RatingEntry tsLe := ⟨fun _ _ _ h h2 => Nat.le_trans h h2⟩

/-- Embeds the sort-and-save step of `processGames`: every sequence of the
history is sorted ascending by timestamp (a stable sort, as in modern JS). -/
def sortHistory (h : RatingHistory) : RatingHistory :=
  { overall := List.insertionSort tsLe h.overall
    moving := List.insertionSort tsLe h.moving
    noMove := List.insertionSort tsLe h.noMove
    nmpz := List.insertionSort tsLe h.nmpz }

/-! ## Feed entries and the extractor (`extractDuelGamesFromFeed`) -/

/-- The parsed payload of a type-6 feed entry, restricted to the fields the
source reads. `competitiveGameMode` is `none` when the field is absent. -/
structure GamePayload where
  gameMode : String
  competitiveGameMode : Option String
  gameId : String
  deriving DecidableEq, Repr

/-- A raw feed entry. JSON parsing is abstracted into the constructors:
`container` is a type-7 entry whose string payload parses to a list of
entries; `containerUnparsable` is a type-7 entry whose string payload throws
on `JSON.parse`; `containerNonString` is a type-7 entry whose payload is not
a string (the source's guard skips it); `leaf` is a type-6 entry whose
payload (string or object) parses to a game payload; `leafUnparsable` is a
type-6 entry whose string payload throws; `other` is an entry of any other
type tag. -/
inductive FeedEntry where
  | container (nested : List FeedEntry)
  | containerUnparsable
  | containerNonString
  | leaf (time : Nat) (payload : GamePayload)
  | leafUnparsable
  | other (t : Nat)

/-- A relevant game activity emitted by the extractor: the entry's `time`
together with the parsed payload. -/
structure Activity where
  time : Nat
  payload : GamePayload
  deriving DecidableEq, Repr

/-- Embeds the `isCompetitiveDuel` test of `extractDuelGamesFromFeed`:
`payload.gameMode === 'Duels' && payload.competitiveGameMode &&
payload.competitiveGameMode !== 'None'`. JavaScript truthiness makes an
absent `competitiveGameMode` and the empty string both fail the test. -/
def isCompetitiveDuel (p : GamePayload) : Bool :=
  p.gameMode == "Duels" &&
    (match p.competitiveGameMode with
     | none => false
     | some s => !(s == "") && !(s == "None"))

/-- Embeds `extractDuelGamesFromFeed` from `src/lib/api.ts`: recursively
unpacks type-7 containers and emits each qualifying type-6 leaf as an
activity, in traversal order. Unparsable and irrelevant entries contribute
nothing. -/
def extractDuelGamesFromFeed : List FeedEntry → List Activity
  | [] => []
  | FeedEntry.container nested :: rest =>
      extractDuelGamesFromFeed nested ++ extractDuelGamesFromFeed rest
  | FeedEntry.leaf time payload :: rest =>
      (if isCompetitiveDuel payload then [⟨time, payload⟩] else []) ++
        extractDuelGamesFromFeed rest
  | FeedEntry.containerUnparsable :: rest => extractDuelGamesFromFeed rest
  | FeedEntry.containerNonString :: rest => extractDuelGamesFromFeed rest
  | FeedEntry.leafUnparsable :: rest => extractDuelGamesFromFeed rest
  | FeedEntry.other _ :: rest => extractDuelGamesFromFeed rest

/-- All parse-ok type-6 leaves reachable through nested type-7 containers, in
traversal order, before any relevance filtering. -/
def collectLeafActivities : List FeedEntry → List Activity
  | [] => []
  | FeedEntry.container nested :: rest =>
      collectLeafActivities nested ++ collectLeafActivities rest
  | FeedEntry.leaf time payload :: rest =>
      ⟨time, payload⟩ :: collectLeafActivities rest
  | FeedEntry.containerUnparsable :: rest => collectLeafActivities rest
  | FeedEntry.containerNonString :: rest => collectLeafActivities rest
  | FeedEntry.leafUnparsable :: rest => collectLeafActivities rest
  | FeedEntry.other _ :: rest => collectLeafActivities rest

/-- Modelled from the spec: the relevance predicate exactly as the spec words
it, `gameMode == "Duels" AND competitiveGameMode not in {absent, "None"}`
(no exclusion of the empty string). -/
def specRelevant (p : GamePayload) : Bool :=
  p.gameMode == "Duels" &&
    (match p.competitiveGameMode with
     | none => false
     | some s => !(s == "None"))

/-- Modelled from the spec: the extraction result the claim describes, namely
all qualifying type-6 leaves at any nesting depth, flattened, with the
spec's relevance predicate. -/
def specExtract (entries : List FeedEntry) : List Activity :=
  (collectLeafActivities entries).filter (fun a => specRelevant a.payload)

/-- The relevance predicate of the amended claim: `competitiveGameMode` must
be present, non-empty and different from "None" (the source tests the field
for JavaScript truthiness, which the empty string fails). -/
def amendedRelevant (p : GamePayload) : Bool :=
  p.gameMode == "Duels" &&
    (match p.competitiveGameMode with
     | none => false
     | some s => !(s == "") && !(s == "None"))

/-! ## Duel detail records and `processGames` -/

/-- `rankedSystemProgress` of a duel player (`src/types/index.ts`): the mode
string and the optional post-game ratings. -/
structure RankedSystemProgress where
  gameMode : String
  ratingAfter : Option Int
  gameModeRatingAfter : Option Int
  deriving DecidableEq, Repr

/-- `progressChange` of a duel player; `rankedSystemProgress` is optional. -/
structure ProgressChange where
  rankedSystemProgress : Option RankedSystemProgress
  deriving DecidableEq, Repr

/-- A player inside a duel detail record. -/
structure DuelPlayer where
  playerId : String
  progressChange : Option ProgressChange
  deriving DecidableEq, Repr

/-- A team inside a duel detail record. -/
structure DuelTeam where
  players : List DuelPlayer
  deriving DecidableEq, Repr

/-- A duel detail record (`DuelResponse` in the source). -/
structure DuelResponse where
  teams : List DuelTeam
  deriving DecidableEq, Repr

/-- Embeds the player lookup of `processGames`:
`duel.teams.flatMap((t) => t.players).find((p) => p.playerId === userId)`
followed by `player?.progressChange?.rankedSystemProgress`. -/
def findProgress (duel : DuelResponse) (userId : String) : Option RankedSystemProgress :=
  match (duel.teams.flatMap (fun t => t.players)).find? (fun p => p.playerId == userId) with
  | none => none
  | some player =>
    match player.progressChange with
    | none => none
    | some pc => pc.rankedSystemProgress

/-- Appends an entry to the sequence a mode key selects
(`storedData[modeKey].push(...)`). -/
def pushMode (h : RatingHistory) (k : ModeKey) (e : RatingEntry) : RatingHistory :=
  match k with
  | ModeKey.moving => { h with moving := h.moving ++ [e] }
  | ModeKey.noMove => { h with noMove := h.noMove ++ [e] }
  | ModeKey.nmpz => { h with nmpz := h.nmpz ++ [e] }

/-- Embeds `gameIds.add(gameId)` on the JavaScript `Set`. -/
def addId (ids : List String) (g : String) : List String :=
  if g ∈ ids then ids else g :: ids

/-- The state threaded through the per-game loop of `processGames`. Besides
the mutable store (`hist`), the known-id set (`ids`) and the two result
booleans, it records the persisted snapshots, the game ids for which a
detail fetch was issued, and how often the per-game callback ran — these
correspond to the calls to `setStoredData`, `fetchApi` and
`onGameProcessed` the source makes. -/
structure ProcState where
  hist : RatingHistory
  ids : List String
  newDataAdded : Bool
  foundExistingGame : Bool
  persisted : List RatingHistory
  fetched : List String
  callbacks : Nat
  deriving DecidableEq, Repr

/-- The `if (progress.ratingAfter != null)` push of `processGames`: append an
`overall` point when the post-game overall rating is present. -/
def applyOverallRating (hist : RatingHistory) (time : Nat) (gameId : String)
    (progress : RankedSystemProgress) : RatingHistory :=
  match progress.ratingAfter with
  | some r => { hist with overall := hist.overall ++ [⟨time, r, gameId⟩] }
  | none => hist

/-- The `if (modeKey && progress.gameModeRatingAfter != null)` push of
`processGames`: append a sub-mode point when the mode key maps and the
post-game sub-mode rating is present. -/
def applyModeRating (hist : RatingHistory) (time : Nat) (gameId : String)
    (progress : RankedSystemProgress) : RatingHistory :=
  match getModeKey progress.gameMode, progress.gameModeRatingAfter with
  | some k, some r => pushMode hist k ⟨time, r, gameId⟩
  | _, _ => hist

/-- The history updates of the `if (progress)` block of `processGames`: push
an `overall` point when `ratingAfter != null`, push a sub-mode point when the
mode key maps and `gameModeRatingAfter != null`, then sort every sequence. -/
def applyProgress (hist : RatingHistory) (time : Nat) (gameId : String)
    (progress : RankedSystemProgress) : RatingHistory :=
  sortHistory (applyModeRating (applyOverallRating hist time gameId progress) time gameId progress)

/-- Embeds one iteration of the `for (const game of duelGames)` loop of
`processGames`. `fetchDuel` is the detail-endpoint oracle standing for
`fetchApi<DuelResponse>`. -/
def processGame (fetchDuel : String → Option DuelResponse) (userId : String)
    (st : ProcState) (game : Activity) : ProcState :=
  let gameId := game.payload.gameId
  if gameId ∈ st.ids then { st with foundExistingGame := true }
  else
    match fetchDuel gameId with
    | none => { st with fetched := st.fetched ++ [gameId] }
    | some duel =>
      match findProgress duel userId with
      | none => { st with fetched := st.fetched ++ [gameId] }
      | some progress =>
        let h3 := applyProgress st.hist game.time gameId progress
        { hist := h3
          ids := addId st.ids gameId
          newDataAdded := true
          foundExistingGame := st.foundExistingGame
          persisted := st.persisted ++ [h3]
          fetched := st.fetched ++ [gameId]
          callbacks := st.callbacks + 1 }

lemma processGame_known (fetchDuel : String → Option DuelResponse) (userId : String)
    (st : ProcState) (game : Activity) (h : game.payload.gameId ∈ st.ids) :
    processGame fetchDuel userId st game = { st with foundExistingGame := true } := by
  simp [processGame, h]

lemma processGame_fetchFail (fetchDuel : String → Option DuelResponse) (userId : String)
    (st : ProcState) (game : Activity) (h : game.payload.gameId ∉ st.ids)
    (hfd : fetchDuel game.payload.gameId = none) :
    processGame fetchDuel userId st game
      = { st with fetched := st.fetched ++ [game.payload.gameId] } := by
  simp [processGame, h, hfd]

lemma processGame_noProgress (fetchDuel : String → Option DuelResponse) (userId : String)
    (st : ProcState) (game : Activity) (duel : DuelResponse)
    (h : game.payload.gameId ∉ st.ids) (hfd : fetchDuel game.payload.gameId = some duel)
    (hpr : findProgress duel userId = none) :
    processGame fetchDuel userId st game
      = { st with fetched := st.fetched ++ [game.payload.gameId] } := by
  simp [processGame, h, hfd, hpr]

lemma processGame_progress (fetchDuel : String → Option DuelResponse) (userId : String)
    (st : ProcState) (game : Activity) (duel : DuelResponse)
    (progress : RankedSystemProgress)
    (h : game.payload.gameId ∉ st.ids) (hfd : fetchDuel game.payload.gameId = some duel)
    (hpr : findProgress duel userId = some progress) :
    processGame fetchDuel userId st game
      = { hist := applyProgress st.hist game.time game.payload.gameId progress
          ids := addId st.ids game.payload.gameId
          newDataAdded := true
          foundExistingGame := st.foundExistingGame
          persisted := st.persisted ++ [applyProgress st.hist game.time game.payload.gameId progress]
          fetched := st.fetched ++ [game.payload.gameId]
          callbacks := st.callbacks + 1 } := by
  simp [processGame, h, hfd, hpr]

/-- The comparator of `duelGames.sort((a, b) => new Date(b.time) - new
Date(a.time))`: newest first. -/
def timeDesc (a b : Activity) : Prop := b.time ≤ a.time

instance : DecidableRel timeDesc := fun a b => inferInstanceAs (Decidable (b.time ≤ a.time))

instance : IsTotal Activity timeDesc := ⟨fun a b => (Nat.le_total b.time a.time)⟩

instance : IsTrans Activity timeDesc := ⟨fun _ _ _ h h2 => Nat.le_trans h2 h⟩

/-- Embeds `processGames` from `src/lib/api.ts`. When `existingGameIds` is
`none` the known-id set is seeded from the stored `overall` sequence,
otherwise the provided set is used, exactly as in the source. -/
def processGames (fetchDuel : String → Option DuelResponse) (userId : String)
    (rawEntries : List FeedEntry) (hist0 : RatingHistory)
    (existingGameIds : Option (List String)) : ProcState :=
  let ids0 := match existingGameIds with
    | some ids => ids
    | none => hist0.overall.map (fun g => g.gameId)
  let duelGames := List.insertionSort timeDesc (extractDuelGamesFromFeed rawEntries)
  duelGames.foldl (processGame fetchDuel userId)
    { hist := hist0, ids := ids0, newDataAdded := false, foundExistingGame := false,
      persisted := [], fetched := [], callbacks := 0 }

/-! ## Sortedness of the history (C4) -/

/-- All four sequences of a history are in non-decreasing timestamp order. -/
def HistSorted (h : RatingHistory) : Prop :=
  h.overall.Sorted tsLe ∧ h.moving.Sorted tsLe ∧ h.noMove.Sorted tsLe ∧ h.nmpz.Sorted tsLe

instance (h : RatingHistory) : Decidable (HistSorted h) :=
  inferInstanceAs (Decidable (_ ∧ _ ∧ _ ∧ _))

lemma sortHistory_sorted (h : RatingHistory) : HistSorted (sortHistory h) :=
  ⟨List.sorted_insertionSort tsLe h.overall, List.sorted_insertionSort tsLe h.moving,
    List.sorted_insertionSort tsLe h.noMove, List.sorted_insertionSort tsLe h.nmpz⟩

lemma sortHistory_id (h : RatingHistory) (hs : HistSorted h) : sortHistory h = h := by
  obtain ⟨h1, h2, h3, h4⟩ := hs
  unfold sortHistory
  rw [h1.insertionSort_eq, h2.insertionSort_eq, h3.insertionSort_eq, h4.insertionSort_eq]

lemma applyProgress_sorted (hist : RatingHistory) (time : Nat) (gameId : String)
    (progress : RankedSystemProgress) :
    HistSorted (applyProgress hist time gameId progress) := by
  unfold applyProgress
  exact sortHistory_sorted _

lemma processGame_sorted (fetchDuel : String → Option DuelResponse) (userId : String)
    (st : ProcState) (game : Activity)
    (hh : HistSorted st.hist) (hp : ∀ x ∈ st.persisted, HistSorted x) :
    HistSorted (processGame fetchDuel userId st game).hist ∧
      ∀ x ∈ (processGame fetchDuel userId st game).persisted, HistSorted x := by
  by_cases hmem : game.payload.gameId ∈ st.ids
  · rw [processGame_known fetchDuel userId st game hmem]
    exact ⟨hh, hp⟩
  · cases hfd : fetchDuel game.payload.gameId with
    | none =>
      rw [processGame_fetchFail fetchDuel userId st game hmem hfd]
      exact ⟨hh, hp⟩
    | some duel =>
      cases hpr : findProgress duel userId with
      | none =>
        rw [processGame_noProgress fetchDuel userId st game duel hmem hfd hpr]
        exact ⟨hh, hp⟩
      | some progress =>
        rw [processGame_progress fetchDuel userId st game duel progress hmem hfd hpr]
        refine ⟨applyProgress_sorted _ _ _ _, ?_⟩
        intro x hx
        simp only [List.mem_append, List.mem_singleton] at hx
        rcases hx with hx | hx
        · exact hp x hx
        · subst hx; exact applyProgress_sorted _ _ _ _

lemma foldl_processGame_sorted (fetchDuel : String → Option DuelResponse) (userId : String)
    (games : List Activity) (st : ProcState)
    (hh : HistSorted st.hist) (hp : ∀ x ∈ st.persisted, HistSorted x) :
    HistSorted (games.foldl (processGame fetchDuel userId) st).hist ∧
      ∀ x ∈ (games.foldl (processGame fetchDuel userId) st).persisted, HistSorted x := by
  induction games generalizing st with
  | nil => exact ⟨hh, hp⟩
  | cons g gs ih =>
    have step := processGame_sorted fetchDuel userId st g hh hp
    exact ih (processGame fetchDuel userId st g) step.1 step.2

/-- C4: if `processGames` starts from a history whose four sequences are each
sorted ascending by timestamp, then every history it persists along the way
and the history it ends with again have all four sequences in non-decreasing
timestamp order. -/
theorem processGames_preserves_sorted (fetchDuel : String → Option DuelResponse)
    (userId : String) (rawEntries : List FeedEntry) (hist0 : RatingHistory)
    (existingGameIds : Option (List String)) (hs : HistSorted hist0) :
    HistSorted (processGames fetchDuel userId rawEntries hist0 existingGameIds).hist ∧
      ∀ x ∈ (processGames fetchDuel userId rawEntries hist0 existingGameIds).persisted,
        HistSorted x := by
  unfold processGames
  exact foldl_processGame_sorted fetchDuel userId _ _ hs (by simp)

/-- Witness for C4 at a concrete input: a one-leaf page with a fresh game
carrying both an overall and a moving rating, over a sorted history. -/
theorem processGames_preserves_sorted_witness :
    HistSorted { overall := [⟨9, 700, "gB"⟩], moving := [], noMove := [], nmpz := [] } ∧
      HistSorted (processGames
        (fun g => if g = "gC" then
          some ⟨[⟨[⟨"u", some ⟨some ⟨"StandardDuels", some 710, some 712⟩⟩⟩]⟩]⟩ else none)
        "u" [FeedEntry.leaf 4 ⟨"Duels", some "StandardDuels", "gC"⟩]
        { overall := [⟨9, 700, "gB"⟩], moving := [], noMove := [], nmpz := [] }
        none).hist :=
  ⟨by decide,
    (processGames_preserves_sorted
      (fun g => if g = "gC" then
        some ⟨[⟨[⟨"u", some ⟨some ⟨"StandardDuels", some 710, some 712⟩⟩⟩]⟩]⟩ else none)
      "u" [FeedEntry.leaf 4 ⟨"Duels", some "StandardDuels", "gC"⟩]
      { overall := [⟨9, 700, "gB"⟩], moving := [], noMove := [], nmpz := [] }
      none (by decide)).1⟩

/-! ## Deduplication and idempotence (C3) -/

/-- The game ids of the `overall` sequence. -/
def overallIds (h : RatingHistory) : List String :=
  h.overall.map (fun e => e.gameId)

/-- How many points (across all four sequences) a history carries for a
given game id. -/
def histCount (h : RatingHistory) (g : String) : Nat :=
  (h.overall.map (fun e => e.gameId)).count g + (h.moving.map (fun e => e.gameId)).count g +
    (h.noMove.map (fun e => e.gameId)).count g + (h.nmpz.map (fun e => e.gameId)).count g

/-- After one merge step, a sequence is a permutation of its old value, with
at most one extra entry, and that entry carries the processed game's id. -/
def SeqOk (g : String) (l l' : List RatingEntry) : Prop :=
  List.Perm l' l ∨ ∃ e : RatingEntry, e.gameId = g ∧ List.Perm l' (l ++ [e])

/-- A sequence extended by at most one entry with the game's id. -/
def SeqExt (g : String) (l l' : List RatingEntry) : Prop :=
  l' = l ∨ ∃ e : RatingEntry, e.gameId = g ∧ l' = l ++ [e]

lemma seqExt_refl (g : String) (l : List RatingEntry) : SeqExt g l l := Or.inl rfl

lemma applyOverallRating_fields (hist : RatingHistory) (t : Nat) (g : String)
    (p : RankedSystemProgress) :
    SeqExt g hist.overall (applyOverallRating hist t g p).overall ∧
      (applyOverallRating hist t g p).moving = hist.moving ∧
      (applyOverallRating hist t g p).noMove = hist.noMove ∧
      (applyOverallRating hist t g p).nmpz = hist.nmpz := by
  cases hra : p.ratingAfter with
  | none => simp [applyOverallRating, hra, seqExt_refl]
  | some r =>
    refine ⟨Or.inr ⟨⟨t, r, g⟩, rfl, ?_⟩, ?_, ?_, ?_⟩ <;> simp [applyOverallRating, hra]

lemma applyModeRating_fields (hist : RatingHistory) (t : Nat) (g : String)
    (p : RankedSystemProgress) :
    (applyModeRating hist t g p).overall = hist.overall ∧
      SeqExt g hist.moving (applyModeRating hist t g p).moving ∧
      SeqExt g hist.noMove (applyModeRating hist t g p).noMove ∧
      SeqExt g hist.nmpz (applyModeRating hist t g p).nmpz := by
  cases hmk : getModeKey p.gameMode with
  | none => simp [applyModeRating, hmk, seqExt_refl]
  | some k =>
    cases hgm : p.gameModeRatingAfter with
    | none => simp [applyModeRating, hmk, hgm, seqExt_refl]
    | some r =>
      cases k <;>
        refine ⟨?_, ?_, ?_, ?_⟩ <;>
        simp only [applyModeRating, hmk, hgm, pushMode] <;>
        first
          | rfl
          | exact seqExt_refl _ _
          | exact Or.inr ⟨⟨t, r, g⟩, rfl, rfl⟩

lemma SeqExt.trans_sort {g : String} {l l' : List RatingEntry}
    (h : SeqExt g l l') : SeqOk g l (List.insertionSort tsLe l') := by
  rcases h with rfl | ⟨e, he, rfl⟩
  · exact Or.inl (List.perm_insertionSort tsLe l')
  · exact Or.inr ⟨e, he, List.perm_insertionSort tsLe (l ++ [e])⟩

lemma SeqExt.comp {g : String} {l l' l'' : List RatingEntry}
    (h1 : SeqExt g l l') (h2 : l'' = l') : SeqExt g l l'' := h2 ▸ h1

lemma applyProgress_seqOk (hist : RatingHistory) (t : Nat) (g : String)
    (p : RankedSystemProgress) :
    SeqOk g hist.overall (applyProgress hist t g p).overall ∧
      SeqOk g hist.moving (applyProgress hist t g p).moving ∧
      SeqOk g hist.noMove (applyProgress hist t g p).noMove ∧
      SeqOk g hist.nmpz (applyProgress hist t g p).nmpz := by
  obtain ⟨ho1, hm1, hn1, hz1⟩ := applyOverallRating_fields hist t g p
  obtain ⟨ho2, hm2, hn2, hz2⟩ :=
    applyModeRating_fields (applyOverallRating hist t g p) t g p
  unfold applyProgress
  simp only [sortHistory]
  refine ⟨(ho1.comp ho2).trans_sort, ?_, ?_, ?_⟩
  · exact ((hm1 ▸ hm2 : SeqExt g hist.moving _)).trans_sort
  · exact ((hn1 ▸ hn2 : SeqExt g hist.noMove _)).trans_sort
  · exact ((hz1 ▸ hz2 : SeqExt g hist.nmpz _)).trans_sort

lemma SeqOk.count_eq {g : String} {l l' : List RatingEntry} (h : SeqOk g l l')
    {x : String} (hx : x ≠ g) :
    (l'.map (fun e => e.gameId)).count x = (l.map (fun e => e.gameId)).count x := by
  rcases h with h | ⟨e, he, h⟩
  · exact (h.map (fun e => e.gameId)).count_eq x
  · rw [(h.map (fun e => e.gameId)).count_eq x]
    simp [List.count_append, he, List.count_singleton, hx]

lemma SeqOk.mem_ids {g : String} {l l' : List RatingEntry} (h : SeqOk g l l')
    {x : String} (hx : x ∈ l'.map (fun e => e.gameId)) :
    x ∈ l.map (fun e => e.gameId) ∨ x = g := by
  rcases h with h | ⟨e, he, h⟩
  · exact Or.inl ((h.map (fun e => e.gameId)).mem_iff.mp hx)
  · have := (h.map (fun e => e.gameId)).mem_iff.mp hx
    simp only [List.map_append, List.map_cons, List.map_nil, List.mem_append,
      List.mem_singleton] at this
    rcases this with hmem | hmem
    · exact Or.inl hmem
    · exact Or.inr (hmem.trans he)

lemma SeqOk.nodup {g : String} {l l' : List RatingEntry} (h : SeqOk g l l')
    (hnd : (l.map (fun e => e.gameId)).Nodup) (hg : g ∉ l.map (fun e => e.gameId)) :
    (l'.map (fun e => e.gameId)).Nodup := by
  rcases h with h | ⟨e, he, h⟩
  · exact (h.map (fun e => e.gameId)).nodup_iff.mpr hnd
  · refine (h.map (fun e => e.gameId)).nodup_iff.mpr ?_
    rw [List.map_append]
    simp only [List.map_cons, List.map_nil]
    refine (List.perm_append_singleton _ _).nodup_iff.mpr ?_
    exact List.nodup_cons.mpr ⟨he ▸ hg, hnd⟩

lemma mem_addId (ids : List String) (g x : String) :
    x ∈ addId ids g ↔ x = g ∨ x ∈ ids := by
  unfold addId
  split
  · rename_i h
    constructor
    · exact fun hx => Or.inr hx
    · rintro (rfl | hx)
      · exact h
      · exact hx
  · simp [List.mem_cons]

lemma processGame_inv_known_id (fetchDuel : String → Option DuelResponse) (userId : String)
    (st : ProcState) (game : Activity) (g : String) (c : Nat)
    (h1 : g ∈ st.ids) (h2 : g ∉ st.fetched) (h3 : histCount st.hist g = c) :
    g ∈ (processGame fetchDuel userId st game).ids ∧
      g ∉ (processGame fetchDuel userId st game).fetched ∧
      histCount (processGame fetchDuel userId st game).hist g = c := by
  by_cases hmem : game.payload.gameId ∈ st.ids
  · rw [processGame_known fetchDuel userId st game hmem]
    exact ⟨h1, h2, h3⟩
  · have hne : game.payload.gameId ≠ g := fun he => hmem (he ▸ h1)
    have hfetched : g ∉ st.fetched ++ [game.payload.gameId] := by
      simp only [List.mem_append, List.mem_singleton]
      rintro (hx | hx)
      · exact h2 hx
      · exact hne hx.symm
    cases hfd : fetchDuel game.payload.gameId with
    | none =>
      rw [processGame_fetchFail fetchDuel userId st game hmem hfd]
      exact ⟨h1, hfetched, h3⟩
    | some duel =>
      cases hpr : findProgress duel userId with
      | none =>
        rw [processGame_noProgress fetchDuel userId st game duel hmem hfd hpr]
        exact ⟨h1, hfetched, h3⟩
      | some progress =>
        rw [processGame_progress fetchDuel userId st game duel progress hmem hfd hpr]
        refine ⟨(mem_addId st.ids game.payload.gameId g).mpr (Or.inr h1), hfetched, ?_⟩
        obtain ⟨so, sm, sn, sz⟩ :=
          applyProgress_seqOk st.hist game.time game.payload.gameId progress
        unfold histCount
        rw [so.count_eq (Ne.symm hne), sm.count_eq (Ne.symm hne),
          sn.count_eq (Ne.symm hne), sz.count_eq (Ne.symm hne)]
        exact h3

lemma processGame_inv_nodup (fetchDuel : String → Option DuelResponse) (userId : String)
    (st : ProcState) (game : Activity)
    (hnd : (overallIds st.hist).Nodup) (hsub : ∀ x ∈ overallIds st.hist, x ∈ st.ids) :
    (overallIds (processGame fetchDuel userId st game).hist).Nodup ∧
      ∀ x ∈ overallIds (processGame fetchDuel userId st game).hist,
        x ∈ (processGame fetchDuel userId st game).ids := by
  by_cases hmem : game.payload.gameId ∈ st.ids
  · rw [processGame_known fetchDuel userId st game hmem]
    exact ⟨hnd, hsub⟩
  · cases hfd : fetchDuel game.payload.gameId with
    | none =>
      rw [processGame_fetchFail fetchDuel userId st game hmem hfd]
      exact ⟨hnd, hsub⟩
    | some duel =>
      cases hpr : findProgress duel userId with
      | none =>
        rw [processGame_noProgress fetchDuel userId st game duel hmem hfd hpr]
        exact ⟨hnd, hsub⟩
      | some progress =>
        rw [processGame_progress fetchDuel userId st game duel progress hmem hfd hpr]
        obtain ⟨so, _, _, _⟩ :=
          applyProgress_seqOk st.hist game.time game.payload.gameId progress
        have hnotin : game.payload.gameId ∉ overallIds st.hist := fun hx => hmem (hsub _ hx)
        constructor
        · exact so.nodup hnd hnotin
        · intro x hx
          rcases so.mem_ids hx with hx' | hx'
          · exact (mem_addId st.ids game.payload.gameId x).mpr (Or.inr (hsub x hx'))
          · exact (mem_addId st.ids game.payload.gameId x).mpr (Or.inl hx')

lemma foldl_inv_known_id (fetchDuel : String → Option DuelResponse) (userId : String)
    (games : List Activity) (st : ProcState) (g : String) (c : Nat)
    (h1 : g ∈ st.ids) (h2 : g ∉ st.fetched) (h3 : histCount st.hist g = c) :
    g ∈ (games.foldl (processGame fetchDuel userId) st).ids ∧
      g ∉ (games.foldl (processGame fetchDuel userId) st).fetched ∧
      histCount (games.foldl (processGame fetchDuel userId) st).hist g = c := by
  induction games generalizing st with
  | nil => exact ⟨h1, h2, h3⟩
  | cons a gs ih =>
    obtain ⟨k1, k2, k3⟩ := processGame_inv_known_id fetchDuel userId st a g c h1 h2 h3
    exact ih (processGame fetchDuel userId st a) k1 k2 k3

lemma foldl_inv_nodup (fetchDuel : String → Option DuelResponse) (userId : String)
    (games : List Activity) (st : ProcState)
    (hnd : (overallIds st.hist).Nodup) (hsub : ∀ x ∈ overallIds st.hist, x ∈ st.ids) :
    (overallIds (games.foldl (processGame fetchDuel userId) st).hist).Nodup ∧
      ∀ x ∈ overallIds (games.foldl (processGame fetchDuel userId) st).hist,
        x ∈ (games.foldl (processGame fetchDuel userId) st).ids := by
  induction games generalizing st with
  | nil => exact ⟨hnd, hsub⟩
  | cons a gs ih =>
    obtain ⟨k1, k2⟩ := processGame_inv_nodup fetchDuel userId st a hnd hsub
    exact ih (processGame fetchDuel userId st a) k1 k2

lemma processGames_call_nodup (fetchDuel : String → Option DuelResponse) (userId : String)
    (rawEntries : List FeedEntry) (hist0 : RatingHistory)
    (hnd : (overallIds hist0).Nodup) :
    (overallIds (processGames fetchDuel userId rawEntries hist0 none).hist).Nodup ∧
      ∀ g ∈ overallIds hist0,
        g ∉ (processGames fetchDuel userId rawEntries hist0 none).fetched ∧
        histCount (processGames fetchDuel userId rawEntries hist0 none).hist g
          = histCount hist0 g := by
  unfold processGames
  dsimp only
  constructor
  · exact (foldl_inv_nodup fetchDuel userId _ _ hnd (fun x hx => hx)).1
  · intro g hg
    exact (foldl_inv_known_id fetchDuel userId
      (List.insertionSort timeDesc (extractDuelGamesFromFeed rawEntries))
      { hist := hist0, ids := List.map (fun g => g.gameId) hist0.overall,
        newDataAdded := false, foundExistingGame := false, persisted := [],
        fetched := [], callbacks := 0 }
      g (histCount hist0 g) hg (List.not_mem_nil g) rfl).2

/-- C3: processing the same feed page twice with `processGames` never
produces a duplicate `gameId` in `overall`, and in each of the two passes a
`gameId` already present in `overall` at the start of the pass is neither
fetched from the detail endpoint nor given any new point in any sequence. -/
theorem processGames_idempotent (fetchDuel : String → Option DuelResponse) (userId : String)
    (rawEntries : List FeedEntry) (hist0 : RatingHistory)
    (hnd : (overallIds hist0).Nodup) :
    (overallIds (processGames fetchDuel userId rawEntries
        (processGames fetchDuel userId rawEntries hist0 none).hist none).hist).Nodup ∧
      (∀ g ∈ overallIds hist0,
        g ∉ (processGames fetchDuel userId rawEntries hist0 none).fetched ∧
        histCount (processGames fetchDuel userId rawEntries hist0 none).hist g
          = histCount hist0 g) ∧
      (∀ g ∈ overallIds (processGames fetchDuel userId rawEntries hist0 none).hist,
        g ∉ (processGames fetchDuel userId rawEntries
            (processGames fetchDuel userId rawEntries hist0 none).hist none).fetched ∧
        histCount (processGames fetchDuel userId rawEntries
            (processGames fetchDuel userId rawEntries hist0 none).hist none).hist g
          = histCount (processGames fetchDuel userId rawEntries hist0 none).hist g) := by
  obtain ⟨hnd1, hpass1⟩ := processGames_call_nodup fetchDuel userId rawEntries hist0 hnd
  obtain ⟨hnd2, hpass2⟩ := processGames_call_nodup fetchDuel userId rawEntries
    (processGames fetchDuel userId rawEntries hist0 none).hist hnd1
  exact ⟨hnd2, hpass1, hpass2⟩

/-- Witness for C3 at a concrete input: a one-leaf page over a history
already holding that game. -/
theorem processGames_idempotent_witness :
    (overallIds { overall := [⟨5, 900, "gA"⟩], moving := [], noMove := [], nmpz := [] }).Nodup ∧
      (overallIds (processGames (fun _ => none) "u"
          [FeedEntry.leaf 5 ⟨"Duels", some "StandardDuels", "gA"⟩]
          (processGames (fun _ => none) "u"
            [FeedEntry.leaf 5 ⟨"Duels", some "StandardDuels", "gA"⟩]
            { overall := [⟨5, 900, "gA"⟩], moving := [], noMove := [], nmpz := [] } none).hist
          none).hist).Nodup :=
  ⟨by decide,
    (processGames_idempotent (fun _ => none) "u"
      [FeedEntry.leaf 5 ⟨"Duels", some "StandardDuels", "gA"⟩]
      { overall := [⟨5, 900, "gA"⟩], moving := [], noMove := [], nmpz := [] }
      (by decide)).1⟩

/-! ## Progress with no usable rating (C10) -/

lemma addId_not_mem (ids : List String) (g : String) (h : g ∉ ids) :
    addId ids g = g :: ids := by
  simp [addId, h]

lemma applyProgress_no_ratings (hist : RatingHistory) (t : Nat) (g : String)
    (progress : RankedSystemProgress)
    (hra : progress.ratingAfter = none)
    (hmode : getModeKey progress.gameMode = none ∨ progress.gameModeRatingAfter = none)
    (hs : HistSorted hist) :
    applyProgress hist t g progress = hist := by
  have h1 : applyOverallRating hist t g progress = hist := by
    simp [applyOverallRating, hra]
  have h2 : applyModeRating hist t g progress = hist := by
    rcases hmode with hmk | hgm
    · simp [applyModeRating, hmk]
    · cases hmk2 : getModeKey progress.gameMode <;> simp [applyModeRating, hmk2, hgm]
  unfold applyProgress
  rw [h1, h2, sortHistory_id hist hs]

/-- C10: when the detail fetch of a new game succeeds and the matching player
carries `rankedSystemProgress` whose `ratingAfter` is null while the sub-mode
rating is null or its mode unmapped, `processGames` appends no point to any
sequence, still reports `newDataAdded = true`, adds the game id to the
in-pass known-id set only (no persisted snapshot contains it), re-persists
the unchanged history once, issues exactly that one detail fetch, and runs
the per-game callback once. -/
theorem processGames_progress_without_ratings
    (fetchDuel : String → Option DuelResponse) (userId : String)
    (rawEntries : List FeedEntry) (hist0 : RatingHistory) (ids0 : List String)
    (t : Nat) (p : GamePayload) (duel : DuelResponse) (progress : RankedSystemProgress)
    (hex : extractDuelGamesFromFeed rawEntries = [⟨t, p⟩])
    (hnot : p.gameId ∉ ids0)
    (hfd : fetchDuel p.gameId = some duel)
    (hpr : findProgress duel userId = some progress)
    (hra : progress.ratingAfter = none)
    (hmode : getModeKey progress.gameMode = none ∨ progress.gameModeRatingAfter = none)
    (hs : HistSorted hist0)
    (hknown : p.gameId ∉ overallIds hist0) :
    (processGames fetchDuel userId rawEntries hist0 (some ids0)).hist = hist0 ∧
      (processGames fetchDuel userId rawEntries hist0 (some ids0)).newDataAdded = true ∧
      (processGames fetchDuel userId rawEntries hist0 (some ids0)).ids = p.gameId :: ids0 ∧
      (processGames fetchDuel userId rawEntries hist0 (some ids0)).persisted = [hist0] ∧
      (∀ x ∈ (processGames fetchDuel userId rawEntries hist0 (some ids0)).persisted,
        p.gameId ∉ overallIds x) ∧
      (processGames fetchDuel userId rawEntries hist0 (some ids0)).callbacks = 1 ∧
      (processGames fetchDuel userId rawEntries hist0 (some ids0)).fetched = [p.gameId] := by
  have hone : processGames fetchDuel userId rawEntries hist0 (some ids0)
      = processGame fetchDuel userId
          { hist := hist0, ids := ids0, newDataAdded := false, foundExistingGame := false,
            persisted := [], fetched := [], callbacks := 0 } ⟨t, p⟩ := by
    unfold processGames
    rw [hex]
    rfl
  have happ : applyProgress hist0 t p.gameId progress = hist0 :=
    applyProgress_no_ratings hist0 t p.gameId progress hra hmode hs
  rw [hone, processGame_progress fetchDuel userId _ ⟨t, p⟩ duel progress hnot hfd hpr]
  simp only [happ]
  refine ⟨by simp, by simp, addId_not_mem ids0 p.gameId hnot, by simp, ?_, by simp, by simp⟩
  intro x hx
  simp only [List.nil_append, List.mem_singleton] at hx
  subst hx
  exact hknown

/-- Witness for C10 at a concrete input: one fresh game whose progress has a
null `ratingAfter` and an unmapped mode. -/
theorem processGames_progress_without_ratings_witness :
    (processGames
        (fun g => if g = "gNew" then
          some ⟨[⟨[⟨"u", some ⟨some ⟨"TeamDuels", none, none⟩⟩⟩]⟩]⟩ else none)
        "u" [FeedEntry.leaf 7 ⟨"Duels", some "StandardDuels", "gNew"⟩]
        { overall := [⟨3, 800, "gOld"⟩], moving := [], noMove := [], nmpz := [] }
        (some ["gOld"])).hist
      = { overall := [⟨3, 800, "gOld"⟩], moving := [], noMove := [], nmpz := [] } ∧
    (processGames
        (fun g => if g = "gNew" then
          some ⟨[⟨[⟨"u", some ⟨some ⟨"TeamDuels", none, none⟩⟩⟩]⟩]⟩ else none)
        "u" [FeedEntry.leaf 7 ⟨"Duels", some "StandardDuels", "gNew"⟩]
        { overall := [⟨3, 800, "gOld"⟩], moving := [], noMove := [], nmpz := [] }
        (some ["gOld"])).newDataAdded = true :=
  have h := processGames_progress_without_ratings
    (fun g => if g = "gNew" then
      some ⟨[⟨[⟨"u", some ⟨some ⟨"TeamDuels", none, none⟩⟩⟩]⟩]⟩ else none)
    "u" [FeedEntry.leaf 7 ⟨"Duels", some "StandardDuels", "gNew"⟩]
    { overall := [⟨3, 800, "gOld"⟩], moving := [], noMove := [], nmpz := [] }
    ["gOld"] 7 ⟨"Duels", some "StandardDuels", "gNew"⟩
    ⟨[⟨[⟨"u", some ⟨some ⟨"TeamDuels", none, none⟩⟩⟩]⟩]⟩
    ⟨"TeamDuels", none, none⟩
    (by simp [extractDuelGamesFromFeed, isCompetitiveDuel])
    (by decide) (by decide) (by simp [findProgress]) rfl
    (Or.inl (by decide)) (by decide) (by decide)
  ⟨h.1, h.2.1⟩

/-! ## Feed pagination (`processFeedPages`, C1/C5/C9) -/

/-- A feed page response: entries plus an optional pagination token. The
TypeScript field is a string that may be absent; `none` models absence. -/
structure FeedResponse where
  entries : List FeedEntry
  paginationToken : Option String

/-- The feed endpoint as an oracle: `initial` is the response of the initial
(no-token) feed URL, `page` maps a pagination token to the response of the
token-bearing URL. `none` models a fetch that failed after all retries. -/
structure FeedOracle where
  initial : Option FeedResponse
  page : String → Option FeedResponse

/-- JavaScript truthiness of the optional pagination token: absent and empty
strings are falsy. -/
def tokenTruthy : Option String → Bool
  | none => false
  | some s => !(s == "")

/-- The persisted sync state (`BackfillState` in the source). -/
structure BackfillState where
  lastLimitDays : Nat
  lastSyncTimestamp : Option Nat
  ended : Bool
  deriving DecidableEq, Repr

/-- The cutoff test of `processFeedPages`: a cutoff date is configured, the
stored `overall` sequence is non-empty, and its first (oldest) entry is
strictly older than the cutoff. -/
def oldestBeforeCutoff (h : RatingHistory) (cutoff : Option Nat) : Bool :=
  match cutoff, h.overall with
  | some c, g :: _ => g.timestamp < c
  | _, _ => false

/-- Per processed page: the `foundExistingGame` flag its `processGames` call
reported, and whether the stored history was past the cutoff right after the
page was processed. -/
structure PageLog where
  found : Bool
  pastCutoff : Bool
  deriving DecidableEq, Repr

/-- The observable outcome of one `processFeedPages` call: the returned
triple, plus the final history, the number of feed-page fetches issued and
one log entry per page fetched and processed. -/
structure SyncPassResult where
  newDataAdded : Bool
  reachedEnd : Bool
  pagesProcessed : Nat
  feedFetches : Nat
  pageLogs : List PageLog
  hist : RatingHistory
  deriving Repr

/-- Embeds the `while (paginationToken && pagesProcessed < maxPages)` loop of
`processFeedPages`. State parameters mirror the mutable locals of the
source; the result's `feedFetches` and `pageLogs` count only this loop's
activity (the caller adds the initial page). -/
def feedLoop (oracle : FeedOracle) (fetchDuel : String → Option DuelResponse)
    (userId : String) (maxPages : Nat) (cutoff : Option Nat) (ended : Bool)
    (token : Option String) (pages : Nat) (found newData : Bool)
    (hist : RatingHistory) (ids : List String) : SyncPassResult :=
  if hguard : tokenTruthy token = true ∧ pages < maxPages then
    if found && ended then
      { newDataAdded := newData, reachedEnd := false, pagesProcessed := pages,
        feedFetches := 0, pageLogs := [], hist := hist }
    else
      match oracle.page (token.getD "") with
      | none =>
        { newDataAdded := newData, reachedEnd := false, pagesProcessed := pages + 1,
          feedFetches := 1, pageLogs := [], hist := hist }
      | some feedData =>
        let pr := processGames fetchDuel userId feedData.entries hist (some ids)
        let newData' := newData || pr.newDataAdded
        let log : PageLog := ⟨pr.foundExistingGame, oldestBeforeCutoff pr.hist cutoff⟩
        if pr.foundExistingGame && ended then
          { newDataAdded := newData', reachedEnd := false, pagesProcessed := pages + 1,
            feedFetches := 1, pageLogs := [log], hist := pr.hist }
        else if oldestBeforeCutoff pr.hist cutoff then
          { newDataAdded := newData', reachedEnd := false, pagesProcessed := pages + 1,
            feedFetches := 1, pageLogs := [log], hist := pr.hist }
        else if tokenTruthy feedData.paginationToken = false then
          { newDataAdded := newData', reachedEnd := true, pagesProcessed := pages + 1,
            feedFetches := 1, pageLogs := [log], hist := pr.hist }
        else
          let r := feedLoop oracle fetchDuel userId maxPages cutoff ended
            feedData.paginationToken (pages + 1) (found || pr.foundExistingGame) newData'
            pr.hist pr.ids
          { newDataAdded := r.newDataAdded, reachedEnd := r.reachedEnd,
            pagesProcessed := r.pagesProcessed, feedFetches := r.feedFetches + 1,
            pageLogs := log :: r.pageLogs, hist := r.hist }
  else
    { newDataAdded := newData, reachedEnd := false, pagesProcessed := pages,
      feedFetches := 0, pageLogs := [], hist := hist }
termination_by maxPages - pages
decreasing_by
  have := hguard.2
  omega

/-- The default page safety cap of `processFeedPages`. -/
def defaultMaxPages : Nat := 500

/-- Embeds `processFeedPages` from `src/lib/api.ts`: fetch and process the
initial feed page, evaluate the early stop rules (end of feed, known game
with persisted `ended`, cutoff), then run the page loop. -/
def processFeedPages (oracle : FeedOracle) (fetchDuel : String → Option DuelResponse)
    (userId : String) (hist0 : RatingHistory) (state : BackfillState)
    (maxPages : Nat) (cutoff : Option Nat) : SyncPassResult :=
  let ids0 := hist0.overall.map (fun g => g.gameId)
  match oracle.initial with
  | none =>
    { newDataAdded := false, reachedEnd := false, pagesProcessed := 0,
      feedFetches := 1, pageLogs := [], hist := hist0 }
  | some initialFeed =>
    let pr := processGames fetchDuel userId initialFeed.entries hist0 (some ids0)
    let log0 : PageLog := ⟨pr.foundExistingGame, oldestBeforeCutoff pr.hist cutoff⟩
    if tokenTruthy initialFeed.paginationToken = false then
      { newDataAdded := pr.newDataAdded, reachedEnd := true, pagesProcessed := 0,
        feedFetches := 1, pageLogs := [log0], hist := pr.hist }
    else if pr.foundExistingGame && state.ended then
      { newDataAdded := pr.newDataAdded, reachedEnd := true, pagesProcessed := 0,
        feedFetches := 1, pageLogs := [log0], hist := pr.hist }
    else if oldestBeforeCutoff pr.hist cutoff then
      { newDataAdded := pr.newDataAdded, reachedEnd := false, pagesProcessed := 0,
        feedFetches := 1, pageLogs := [log0], hist := pr.hist }
    else
      let r := feedLoop oracle fetchDuel userId maxPages cutoff state.ended
        initialFeed.paginationToken 0 pr.foundExistingGame pr.newDataAdded pr.hist pr.ids
      { newDataAdded := r.newDataAdded, reachedEnd := r.reachedEnd,
        pagesProcessed := r.pagesProcessed, feedFetches := r.feedFetches + 1,
        pageLogs := log0 :: r.pageLogs, hist := r.hist }

lemma feedLoop_exit (oracle : FeedOracle) (fetchDuel : String → Option DuelResponse)
    (userId : String) (maxPages : Nat) (cutoff : Option Nat) (ended : Bool)
    (token : Option String) (pages : Nat) (found newData : Bool)
    (hist : RatingHistory) (ids : List String)
    (h : ¬(tokenTruthy token = true ∧ pages < maxPages)) :
    feedLoop oracle fetchDuel userId maxPages cutoff ended token pages found newData hist ids
      = { newDataAdded := newData, reachedEnd := false, pagesProcessed := pages,
          feedFetches := 0, pageLogs := [], hist := hist } := by
  rw [feedLoop]
  simp [h]

lemma feedLoop_break_found (oracle : FeedOracle) (fetchDuel : String → Option DuelResponse)
    (userId : String) (maxPages : Nat) (cutoff : Option Nat) (ended : Bool)
    (token : Option String) (pages : Nat) (found newData : Bool)
    (hist : RatingHistory) (ids : List String)
    (hguard : tokenTruthy token = true ∧ pages < maxPages)
    (h : (found && ended) = true) :
    feedLoop oracle fetchDuel userId maxPages cutoff ended token pages found newData hist ids
      = { newDataAdded := newData, reachedEnd := false, pagesProcessed := pages,
          feedFetches := 0, pageLogs := [], hist := hist } := by
  rw [feedLoop]
  simp [hguard, h]

lemma feedLoop_fetch_fail (oracle : FeedOracle) (fetchDuel : String → Option DuelResponse)
    (userId : String) (maxPages : Nat) (cutoff : Option Nat) (ended : Bool)
    (token : Option String) (pages : Nat) (found newData : Bool)
    (hist : RatingHistory) (ids : List String)
    (hguard : tokenTruthy token = true ∧ pages < maxPages)
    (h : (found && ended) = false)
    (hfd : oracle.page (token.getD "") = none) :
    feedLoop oracle fetchDuel userId maxPages cutoff ended token pages found newData hist ids
      = { newDataAdded := newData, reachedEnd := false, pagesProcessed := pages + 1,
          feedFetches := 1, pageLogs := [], hist := hist } := by
  rw [feedLoop]
  simp [hguard, h, hfd]

lemma feedLoop_found_stop (oracle : FeedOracle) (fetchDuel : String → Option DuelResponse)
    (userId : String) (maxPages : Nat) (cutoff : Option Nat) (ended : Bool)
    (token : Option String) (pages : Nat) (found newData : Bool)
    (hist : RatingHistory) (ids : List String) (feedData : FeedResponse)
    (hguard : tokenTruthy token = true ∧ pages < maxPages)
    (h : (found && ended) = false)
    (hfd : oracle.page (token.getD "") = some feedData)
    (h3 : ((processGames fetchDuel userId feedData.entries hist (some ids)).foundExistingGame
      && ended) = true) :
    feedLoop oracle fetchDuel userId maxPages cutoff ended token pages found newData hist ids
      = { newDataAdded := newData
            || (processGames fetchDuel userId feedData.entries hist (some ids)).newDataAdded,
          reachedEnd := false, pagesProcessed := pages + 1, feedFetches := 1,
          pageLogs := [⟨(processGames fetchDuel userId feedData.entries hist
              (some ids)).foundExistingGame,
            oldestBeforeCutoff (processGames fetchDuel userId feedData.entries hist
              (some ids)).hist cutoff⟩],
          hist := (processGames fetchDuel userId feedData.entries hist (some ids)).hist } := by
  rw [feedLoop]
  simp [hguard, h, hfd, h3]

lemma feedLoop_cutoff_stop (oracle : FeedOracle) (fetchDuel : String → Option DuelResponse)
    (userId : String) (maxPages : Nat) (cutoff : Option Nat) (ended : Bool)
    (token : Option String) (pages : Nat) (found newData : Bool)
    (hist : RatingHistory) (ids : List String) (feedData : FeedResponse)
    (hguard : tokenTruthy token = true ∧ pages < maxPages)
    (h : (found && ended) = false)
    (hfd : oracle.page (token.getD "") = some feedData)
    (h3 : ((processGames fetchDuel userId feedData.entries hist (some ids)).foundExistingGame
      && ended) = false)
    (h4 : oldestBeforeCutoff (processGames fetchDuel userId feedData.entries hist
      (some ids)).hist cutoff = true) :
    feedLoop oracle fetchDuel userId maxPages cutoff ended token pages found newData hist ids
      = { newDataAdded := newData
            || (processGames fetchDuel userId feedData.entries hist (some ids)).newDataAdded,
          reachedEnd := false, pagesProcessed := pages + 1, feedFetches := 1,
          pageLogs := [⟨(processGames fetchDuel userId feedData.entries hist
              (some ids)).foundExistingGame,
            oldestBeforeCutoff (processGames fetchDuel userId feedData.entries hist
              (some ids)).hist cutoff⟩],
          hist := (processGames fetchDuel userId feedData.entries hist (some ids)).hist } := by
  rw [feedLoop]
  simp [hguard, h, hfd, h3, h4]

lemma feedLoop_end_of_feed (oracle : FeedOracle) (fetchDuel : String → Option DuelResponse)
    (userId : String) (maxPages : Nat) (cutoff : Option Nat) (ended : Bool)
    (token : Option String) (pages : Nat) (found newData : Bool)
    (hist : RatingHistory) (ids : List String) (feedData : FeedResponse)
    (hguard : tokenTruthy token = true ∧ pages < maxPages)
    (h : (found && ended) = false)
    (hfd : oracle.page (token.getD "") = some feedData)
    (h3 : ((processGames fetchDuel userId feedData.entries hist (some ids)).foundExistingGame
      && ended) = false)
    (h4 : oldestBeforeCutoff (processGames fetchDuel userId feedData.entries hist
      (some ids)).hist cutoff = false)
    (h5 : tokenTruthy feedData.paginationToken = false) :
    feedLoop oracle fetchDuel userId maxPages cutoff ended token pages found newData hist ids
      = { newDataAdded := newData
            || (processGames fetchDuel userId feedData.entries hist (some ids)).newDataAdded,
          reachedEnd := true, pagesProcessed := pages + 1, feedFetches := 1,
          pageLogs := [⟨(processGames fetchDuel userId feedData.entries hist
              (some ids)).foundExistingGame,
            oldestBeforeCutoff (processGames fetchDuel userId feedData.entries hist
              (some ids)).hist cutoff⟩],
          hist := (processGames fetchDuel userId feedData.entries hist (some ids)).hist } := by
  rw [feedLoop]
  simp [hguard, h, hfd, h3, h4, h5]

lemma feedLoop_continue (oracle : FeedOracle) (fetchDuel : String → Option DuelResponse)
    (userId : String) (maxPages : Nat) (cutoff : Option Nat) (ended : Bool)
    (token : Option String) (pages : Nat) (found newData : Bool)
    (hist : RatingHistory) (ids : List String) (feedData : FeedResponse)
    (hguard : tokenTruthy token = true ∧ pages < maxPages)
    (h : (found && ended) = false)
    (hfd : oracle.page (token.getD "") = some feedData)
    (h3 : ((processGames fetchDuel userId feedData.entries hist (some ids)).foundExistingGame
      && ended) = false)
    (h4 : oldestBeforeCutoff (processGames fetchDuel userId feedData.entries hist
      (some ids)).hist cutoff = false)
    (h5 : tokenTruthy feedData.paginationToken = true) :
    feedLoop oracle fetchDuel userId maxPages cutoff ended token pages found newData hist ids
      = { newDataAdded := (feedLoop oracle fetchDuel userId maxPages cutoff ended
            feedData.paginationToken (pages + 1)
            (found || (processGames fetchDuel userId feedData.entries hist
              (some ids)).foundExistingGame)
            (newData || (processGames fetchDuel userId feedData.entries hist
              (some ids)).newDataAdded)
            (processGames fetchDuel userId feedData.entries hist (some ids)).hist
            (processGames fetchDuel userId feedData.entries hist (some ids)).ids).newDataAdded,
          reachedEnd := (feedLoop oracle fetchDuel userId maxPages cutoff ended
            feedData.paginationToken (pages + 1)
            (found || (processGames fetchDuel userId feedData.entries hist
              (some ids)).foundExistingGame)
            (newData || (processGames fetchDuel userId feedData.entries hist
              (some ids)).newDataAdded)
            (processGames fetchDuel userId feedData.entries hist (some ids)).hist
            (processGames fetchDuel userId feedData.entries hist (some ids)).ids).reachedEnd,
          pagesProcessed := (feedLoop oracle fetchDuel userId maxPages cutoff ended
            feedData.paginationToken (pages + 1)
            (found || (processGames fetchDuel userId feedData.entries hist
              (some ids)).foundExistingGame)
            (newData || (processGames fetchDuel userId feedData.entries hist
              (some ids)).newDataAdded)
            (processGames fetchDuel userId feedData.entries hist (some ids)).hist
            (processGames fetchDuel userId feedData.entries hist (some ids)).ids).pagesProcessed,
          feedFetches := (feedLoop oracle fetchDuel userId maxPages cutoff ended
            feedData.paginationToken (pages + 1)
            (found || (processGames fetchDuel userId feedData.entries hist
              (some ids)).foundExistingGame)
            (newData || (processGames fetchDuel userId feedData.entries hist
              (some ids)).newDataAdded)
            (processGames fetchDuel userId feedData.entries hist (some ids)).hist
            (processGames fetchDuel userId feedData.entries hist (some ids)).ids).feedFetches + 1,
          pageLogs := ⟨(processGames fetchDuel userId feedData.entries hist
              (some ids)).foundExistingGame,
            oldestBeforeCutoff (processGames fetchDuel userId feedData.entries hist
              (some ids)).hist cutoff⟩ ::
            (feedLoop oracle fetchDuel userId maxPages cutoff ended
              feedData.paginationToken (pages + 1)
              (found || (processGames fetchDuel userId feedData.entries hist
                (some ids)).foundExistingGame)
              (newData || (processGames fetchDuel userId feedData.entries hist
                (some ids)).newDataAdded)
              (processGames fetchDuel userId feedData.entries hist (some ids)).hist
              (processGames fetchDuel userId feedData.entries hist (some ids)).ids).pageLogs,
          hist := (feedLoop oracle fetchDuel userId maxPages cutoff ended
            feedData.paginationToken (pages + 1)
            (found || (processGames fetchDuel userId feedData.entries hist
              (some ids)).foundExistingGame)
            (newData || (processGames fetchDuel userId feedData.entries hist
              (some ids)).newDataAdded)
            (processGames fetchDuel userId feedData.entries hist (some ids)).hist
            (processGames fetchDuel userId feedData.entries hist (some ids)).ids).hist } := by
  rw [feedLoop]
  simp [hguard, h, hfd, h3, h4, h5]

lemma feedLoop_known_stop (oracle : FeedOracle) (fetchDuel : String → Option DuelResponse)
    (userId : String) (maxPages : Nat) (cutoff : Option Nat)
    (token : Option String) (pages : Nat) (found newData : Bool)
    (hist : RatingHistory) (ids : List String) :
    ∀ (k : Nat) (L : PageLog),
      (feedLoop oracle fetchDuel userId maxPages cutoff true token pages found newData
          hist ids).pageLogs[k]? = some L →
      L.found = true →
      (feedLoop oracle fetchDuel userId maxPages cutoff true token pages found newData
          hist ids).pageLogs.length = k + 1 ∧
        (feedLoop oracle fetchDuel userId maxPages cutoff true token pages found newData
          hist ids).feedFetches = k + 1 ∧
        (feedLoop oracle fetchDuel userId maxPages cutoff true token pages found newData
          hist ids).reachedEnd = false := by
  induction token, pages, found, newData, hist, ids using feedLoop.induct oracle fetchDuel
    userId maxPages cutoff true with
  | case1 token pages found newData hist ids hguard hbrk =>
    intro k L hlog hfound
    rw [feedLoop_break_found oracle fetchDuel userId maxPages cutoff true token pages found
      newData hist ids hguard hbrk] at hlog
    simp at hlog
  | case2 token pages found newData hist ids hguard hbrk hfd =>
    intro k L hlog hfound
    have hb : (found && true) = false := by simpa using hbrk
    rw [feedLoop_fetch_fail oracle fetchDuel userId maxPages cutoff true token pages found
      newData hist ids hguard hb hfd] at hlog
    simp at hlog
  | case3 token pages found newData hist ids hguard hbrk feedData hfd pr hstop =>
    intro k L hlog hfound
    have hb : (found && true) = false := by simpa using hbrk
    rw [feedLoop_found_stop oracle fetchDuel userId maxPages cutoff true token pages found
      newData hist ids feedData hguard hb hfd hstop] at hlog ⊢
    cases k with
    | zero => simp
    | succ n => simp at hlog
  | case4 token pages found newData hist ids hguard hbrk feedData hfd pr hstop hcut =>
    intro k L hlog hfound
    have hb : (found && true) = false := by simpa using hbrk
    have hs3 : ((processGames fetchDuel userId feedData.entries hist
        (some ids)).foundExistingGame && true) = false := by simpa using hstop
    have hprf : (processGames fetchDuel userId feedData.entries hist
        (some ids)).foundExistingGame = false := by simpa using hs3
    rw [feedLoop_cutoff_stop oracle fetchDuel userId maxPages cutoff true token pages found
      newData hist ids feedData hguard hb hfd hs3 hcut] at hlog
    cases k with
    | zero =>
      simp only [List.getElem?_cons_zero, Option.some_inj] at hlog
      rw [← hlog] at hfound
      simp [hprf] at hfound
    | succ n => simp at hlog
  | case5 token pages found newData hist ids hguard hbrk feedData hfd pr hstop hcut hend =>
    intro k L hlog hfound
    have hb : (found && true) = false := by simpa using hbrk
    have hs3 : ((processGames fetchDuel userId feedData.entries hist
        (some ids)).foundExistingGame && true) = false := by simpa using hstop
    have hprf : (processGames fetchDuel userId feedData.entries hist
        (some ids)).foundExistingGame = false := by simpa using hs3
    have hc : oldestBeforeCutoff (processGames fetchDuel userId feedData.entries hist
        (some ids)).hist cutoff = false := by simpa using hcut
    rw [feedLoop_end_of_feed oracle fetchDuel userId maxPages cutoff true token pages found
      newData hist ids feedData hguard hb hfd hs3 hc hend] at hlog
    cases k with
    | zero =>
      simp only [List.getElem?_cons_zero, Option.some_inj] at hlog
      rw [← hlog] at hfound
      simp [hprf] at hfound
    | succ n => simp at hlog
  | case6 token pages found newData hist ids hguard hbrk feedData hfd pr nd2 hstop hcut hend ih =>
    intro k L hlog hfound
    have hb : (found && true) = false := by simpa using hbrk
    have hs3 : ((processGames fetchDuel userId feedData.entries hist
        (some ids)).foundExistingGame && true) = false := by simpa using hstop
    have hprf : (processGames fetchDuel userId feedData.entries hist
        (some ids)).foundExistingGame = false := by simpa using hs3
    have hc : oldestBeforeCutoff (processGames fetchDuel userId feedData.entries hist
        (some ids)).hist cutoff = false := by simpa using hcut
    have ht : tokenTruthy feedData.paginationToken = true := by simpa using hend
    rw [feedLoop_continue oracle fetchDuel userId maxPages cutoff true token pages found
      newData hist ids feedData hguard hb hfd hs3 hc ht] at hlog ⊢
    cases k with
    | zero =>
      simp only [List.getElem?_cons_zero, Option.some_inj] at hlog
      rw [← hlog] at hfound
      simp [hprf] at hfound
    | succ n =>
      simp only [List.getElem?_cons_succ] at hlog
      obtain ⟨e1, e2, e3⟩ := ih n L hlog hfound
      refine ⟨?_, ?_, e3⟩
      · simp [e1]
      · simp [e2]
  | case7 token pages found newData hist ids hguard =>
    intro k L hlog hfound
    rw [feedLoop_exit oracle fetchDuel userId maxPages cutoff true token pages found
      newData hist ids hguard] at hlog
    simp at hlog

lemma processFeedPages_init_fail (oracle : FeedOracle)
    (fetchDuel : String → Option DuelResponse) (userId : String) (hist0 : RatingHistory)
    (state : BackfillState) (maxPages : Nat) (cutoff : Option Nat)
    (ho : oracle.initial = none) :
    processFeedPages oracle fetchDuel userId hist0 state maxPages cutoff
      = { newDataAdded := false, reachedEnd := false, pagesProcessed := 0,
          feedFetches := 1, pageLogs := [], hist := hist0 } := by
  simp [processFeedPages, ho]

lemma processFeedPages_first_end (oracle : FeedOracle)
    (fetchDuel : String → Option DuelResponse) (userId : String) (hist0 : RatingHistory)
    (state : BackfillState) (maxPages : Nat) (cutoff : Option Nat) (f : FeedResponse)
    (ho : oracle.initial = some f)
    (ht : tokenTruthy f.paginationToken = false) :
    processFeedPages oracle fetchDuel userId hist0 state maxPages cutoff
      = { newDataAdded := (processGames fetchDuel userId f.entries hist0
            (some (hist0.overall.map (fun g => g.gameId)))).newDataAdded,
          reachedEnd := true, pagesProcessed := 0, feedFetches := 1,
          pageLogs := [⟨(processGames fetchDuel userId f.entries hist0
              (some (hist0.overall.map (fun g => g.gameId)))).foundExistingGame,
            oldestBeforeCutoff (processGames fetchDuel userId f.entries hist0
              (some (hist0.overall.map (fun g => g.gameId)))).hist cutoff⟩],
          hist := (processGames fetchDuel userId f.entries hist0
            (some (hist0.overall.map (fun g => g.gameId)))).hist } := by
  simp [processFeedPages, ho, ht]

lemma processFeedPages_first_known (oracle : FeedOracle)
    (fetchDuel : String → Option DuelResponse) (userId : String) (hist0 : RatingHistory)
    (state : BackfillState) (maxPages : Nat) (cutoff : Option Nat) (f : FeedResponse)
    (ho : oracle.initial = some f)
    (ht : tokenTruthy f.paginationToken = true)
    (hf : ((processGames fetchDuel userId f.entries hist0
      (some (hist0.overall.map (fun g => g.gameId)))).foundExistingGame && state.ended) = true) :
    processFeedPages oracle fetchDuel userId hist0 state maxPages cutoff
      = { newDataAdded := (processGames fetchDuel userId f.entries hist0
            (some (hist0.overall.map (fun g => g.gameId)))).newDataAdded,
          reachedEnd := true, pagesProcessed := 0, feedFetches := 1,
          pageLogs := [⟨(processGames fetchDuel userId f.entries hist0
              (some (hist0.overall.map (fun g => g.gameId)))).foundExistingGame,
            oldestBeforeCutoff (processGames fetchDuel userId f.entries hist0
              (some (hist0.overall.map (fun g => g.gameId)))).hist cutoff⟩],
          hist := (processGames fetchDuel userId f.entries hist0
            (some (hist0.overall.map (fun g => g.gameId)))).hist } := by
  simp [processFeedPages, ho, ht, hf]

lemma processFeedPages_first_cutoff (oracle : FeedOracle)
    (fetchDuel : String → Option DuelResponse) (userId : String) (hist0 : RatingHistory)
    (state : BackfillState) (maxPages : Nat) (cutoff : Option Nat) (f : FeedResponse)
    (ho : oracle.initial = some f)
    (ht : tokenTruthy f.paginationToken = true)
    (hf : ((processGames fetchDuel userId f.entries hist0
      (some (hist0.overall.map (fun g => g.gameId)))).foundExistingGame && state.ended) = false)
    (hc : oldestBeforeCutoff (processGames fetchDuel userId f.entries hist0
      (some (hist0.overall.map (fun g => g.gameId)))).hist cutoff = true) :
    processFeedPages oracle fetchDuel userId hist0 state maxPages cutoff
      = { newDataAdded := (processGames fetchDuel userId f.entries hist0
            (some (hist0.overall.map (fun g => g.gameId)))).newDataAdded,
          reachedEnd := false, pagesProcessed := 0, feedFetches := 1,
          pageLogs := [⟨(processGames fetchDuel userId f.entries hist0
              (some (hist0.overall.map (fun g => g.gameId)))).foundExistingGame,
            oldestBeforeCutoff (processGames fetchDuel userId f.entries hist0
              (some (hist0.overall.map (fun g => g.gameId)))).hist cutoff⟩],
          hist := (processGames fetchDuel userId f.entries hist0
            (some (hist0.overall.map (fun g => g.gameId)))).hist } := by
  simp [processFeedPages, ho, ht, hf, hc]

lemma processFeedPages_enter_loop (oracle : FeedOracle)
    (fetchDuel : String → Option DuelResponse) (userId : String) (hist0 : RatingHistory)
    (state : BackfillState) (maxPages : Nat) (cutoff : Option Nat) (f : FeedResponse)
    (ho : oracle.initial = some f)
    (ht : tokenTruthy f.paginationToken = true)
    (hf : ((processGames fetchDuel userId f.entries hist0
      (some (hist0.overall.map (fun g => g.gameId)))).foundExistingGame && state.ended) = false)
    (hc : oldestBeforeCutoff (processGames fetchDuel userId f.entries hist0
      (some (hist0.overall.map (fun g => g.gameId)))).hist cutoff = false) :
    processFeedPages oracle fetchDuel userId hist0 state maxPages cutoff
      = { newDataAdded := (feedLoop oracle fetchDuel userId maxPages cutoff state.ended
            f.paginationToken 0
            (processGames fetchDuel userId f.entries hist0
              (some (hist0.overall.map (fun g => g.gameId)))).foundExistingGame
            (processGames fetchDuel userId f.entries hist0
              (some (hist0.overall.map (fun g => g.gameId)))).newDataAdded
            (processGames fetchDuel userId f.entries hist0
              (some (hist0.overall.map (fun g => g.gameId)))).hist
            (processGames fetchDuel userId f.entries hist0
              (some (hist0.overall.map (fun g => g.gameId)))).ids).newDataAdded,
          reachedEnd := (feedLoop oracle fetchDuel userId maxPages cutoff state.ended
            f.paginationToken 0
            (processGames fetchDuel userId f.entries hist0
              (some (hist0.overall.map (fun g => g.gameId)))).foundExistingGame
            (processGames fetchDuel userId f.entries hist0
              (some (hist0.overall.map (fun g => g.gameId)))).newDataAdded
            (processGames fetchDuel userId f.entries hist0
              (some (hist0.overall.map (fun g => g.gameId)))).hist
            (processGames fetchDuel userId f.entries hist0
              (some (hist0.overall.map (fun g => g.gameId)))).ids).reachedEnd,
          pagesProcessed := (feedLoop oracle fetchDuel userId maxPages cutoff state.ended
            f.paginationToken 0
            (processGames fetchDuel userId f.entries hist0
              (some (hist0.overall.map (fun g => g.gameId)))).foundExistingGame
            (processGames fetchDuel userId f.entries hist0
              (some (hist0.overall.map (fun g => g.gameId)))).newDataAdded
            (processGames fetchDuel userId f.entries hist0
              (some (hist0.overall.map (fun g => g.gameId)))).hist
            (processGames fetchDuel userId f.entries hist0
              (some (hist0.overall.map (fun g => g.gameId)))).ids).pagesProcessed,
          feedFetches := (feedLoop oracle fetchDuel userId maxPages cutoff state.ended
            f.paginationToken 0
            (processGames fetchDuel userId f.entries hist0
              (some (hist0.overall.map (fun g => g.gameId)))).foundExistingGame
            (processGames fetchDuel userId f.entries hist0
              (some (hist0.overall.map (fun g => g.gameId)))).newDataAdded
            (processGames fetchDuel userId f.entries hist0
              (some (hist0.overall.map (fun g => g.gameId)))).hist
            (processGames fetchDuel userId f.entries hist0
              (some (hist0.overall.map (fun g => g.gameId)))).ids).feedFetches + 1,
          pageLogs := ⟨(processGames fetchDuel userId f.entries hist0
              (some (hist0.overall.map (fun g => g.gameId)))).foundExistingGame,
            oldestBeforeCutoff (processGames fetchDuel userId f.entries hist0
              (some (hist0.overall.map (fun g => g.gameId)))).hist cutoff⟩ ::
            (feedLoop oracle fetchDuel userId maxPages cutoff state.ended
              f.paginationToken 0
              (processGames fetchDuel userId f.entries hist0
                (some (hist0.overall.map (fun g => g.gameId)))).foundExistingGame
              (processGames fetchDuel userId f.entries hist0
                (some (hist0.overall.map (fun g => g.gameId)))).newDataAdded
              (processGames fetchDuel userId f.entries hist0
                (some (hist0.overall.map (fun g => g.gameId)))).hist
              (processGames fetchDuel userId f.entries hist0
                (some (hist0.overall.map (fun g => g.gameId)))).ids).pageLogs,
          hist := (feedLoop oracle fetchDuel userId maxPages cutoff state.ended
            f.paginationToken 0
            (processGames fetchDuel userId f.entries hist0
              (some (hist0.overall.map (fun g => g.gameId)))).foundExistingGame
            (processGames fetchDuel userId f.entries hist0
              (some (hist0.overall.map (fun g => g.gameId)))).newDataAdded
            (processGames fetchDuel userId f.entries hist0
              (some (hist0.overall.map (fun g => g.gameId)))).hist
            (processGames fetchDuel userId f.entries hist0
              (some (hist0.overall.map (fun g => g.gameId)))).ids).hist } := by
  simp [processFeedPages, ho, ht, hf, hc]

/-- C1 (amended): when the persisted `ended` flag is true and the
`processGames` call of some fetched page reports a match against the
known-id set, `processFeedPages` stops with that page — it is the last page
fetched and processed — and it reports `reachedEnd = true` exactly when the
match occurred on the initial page; for a match on any later page the pass
still stops at once but returns `reachedEnd = false`. -/
theorem processFeedPages_known_game_stop (oracle : FeedOracle)
    (fetchDuel : String → Option DuelResponse) (userId : String) (hist0 : RatingHistory)
    (state : BackfillState) (maxPages : Nat) (cutoff : Option Nat)
    (hend : state.ended = true) :
    ∀ (k : Nat) (L : PageLog),
      (processFeedPages oracle fetchDuel userId hist0 state maxPages cutoff).pageLogs[k]?
        = some L →
      L.found = true →
      (processFeedPages oracle fetchDuel userId hist0 state maxPages cutoff).pageLogs.length
          = k + 1 ∧
        (processFeedPages oracle fetchDuel userId hist0 state maxPages cutoff).feedFetches
          = k + 1 ∧
        (k = 0 →
          (processFeedPages oracle fetchDuel userId hist0 state maxPages cutoff).reachedEnd
            = true) ∧
        (k ≠ 0 →
          (processFeedPages oracle fetchDuel userId hist0 state maxPages cutoff).reachedEnd
            = false) := by
  intro k L hlog hfound
  cases ho : oracle.initial with
  | none =>
    rw [processFeedPages_init_fail oracle fetchDuel userId hist0 state maxPages cutoff ho]
      at hlog
    simp at hlog
  | some f =>
    cases ht : tokenTruthy f.paginationToken with
    | false =>
      rw [processFeedPages_first_end oracle fetchDuel userId hist0 state maxPages cutoff f
        ho ht] at hlog ⊢
      cases k with
      | zero => exact ⟨rfl, rfl, fun _ => rfl, fun hk => absurd rfl hk⟩
      | succ n => simp at hlog
    | true =>
      cases hf : (processGames fetchDuel userId f.entries hist0
          (some (hist0.overall.map (fun g => g.gameId)))).foundExistingGame with
      | true =>
        have hfa : ((processGames fetchDuel userId f.entries hist0
            (some (hist0.overall.map (fun g => g.gameId)))).foundExistingGame
              && state.ended) = true := by
          rw [hf, hend]
          rfl
        rw [processFeedPages_first_known oracle fetchDuel userId hist0 state maxPages cutoff f
          ho ht hfa] at hlog ⊢
        cases k with
        | zero => exact ⟨rfl, rfl, fun _ => rfl, fun hk => absurd rfl hk⟩
        | succ n => simp at hlog
      | false =>
        have hfa : ((processGames fetchDuel userId f.entries hist0
            (some (hist0.overall.map (fun g => g.gameId)))).foundExistingGame
              && state.ended) = false := by
          rw [hf]
          rfl
        cases hc : oldestBeforeCutoff (processGames fetchDuel userId f.entries hist0
            (some (hist0.overall.map (fun g => g.gameId)))).hist cutoff with
        | true =>
          rw [processFeedPages_first_cutoff oracle fetchDuel userId hist0 state maxPages
            cutoff f ho ht hfa hc] at hlog
          cases k with
          | zero =>
            simp only [List.getElem?_cons_zero, Option.some_inj] at hlog
            rw [← hlog] at hfound
            simp [hf] at hfound
          | succ n => simp at hlog
        | false =>
          rw [processFeedPages_enter_loop oracle fetchDuel userId hist0 state maxPages
            cutoff f ho ht hfa hc] at hlog ⊢
          cases k with
          | zero =>
            simp only [List.getElem?_cons_zero, Option.some_inj] at hlog
            rw [← hlog] at hfound
            simp [hf] at hfound
          | succ n =>
            simp only [List.getElem?_cons_succ] at hlog
            rw [hend] at hlog ⊢
            obtain ⟨e1, e2, e3⟩ := feedLoop_known_stop oracle fetchDuel userId maxPages
              cutoff f.paginationToken 0
              (processGames fetchDuel userId f.entries hist0
                (some (hist0.overall.map (fun g => g.gameId)))).foundExistingGame
              (processGames fetchDuel userId f.entries hist0
                (some (hist0.overall.map (fun g => g.gameId)))).newDataAdded
              (processGames fetchDuel userId f.entries hist0
                (some (hist0.overall.map (fun g => g.gameId)))).hist
              (processGames fetchDuel userId f.entries hist0
                (some (hist0.overall.map (fun g => g.gameId)))).ids
              n L hlog hfound
            refine ⟨by simp [e1], by simp [e2], fun hk => absurd hk (Nat.succ_ne_zero n),
              fun _ => e3⟩

/-- A two-page synthetic feed: the initial page is empty with a cursor, the
page behind cursor "t1" holds an event for the already-known game "A" and
offers a further cursor "t2". -/
def twoPageOracle : FeedOracle :=
  { initial := some ⟨[], some "t1"⟩
    page := fun t =>
      if t = "t1" then
        some ⟨[FeedEntry.leaf 5 ⟨"Duels", some "StandardDuels", "A"⟩], some "t2"⟩
      else none }

/-- A history that already knows game "A". -/
def historyWithA : RatingHistory :=
  { overall := [⟨0, 1000, "A"⟩], moving := [], noMove := [], nmpz := [] }

/-- A persisted sync state with `ended = true`. -/
def endedState : BackfillState := { lastLimitDays := 30, lastSyncTimestamp := some 100, ended := true }

/-- C1 (counterexample): with `ended = true` and the known-game match
occurring on the second fetched page (page index 1), the pass stops (that
page is the last of the two fetched) but returns `reachedEnd = false`,
contradicting the claim that it reports `reachedEnd = true` on whichever
page the match occurs. -/
theorem processFeedPages_later_match_counterexample :
    endedState.ended = true ∧
      (processFeedPages twoPageOracle (fun _ => none) "u" historyWithA endedState 500
          none).pageLogs[1]? = some ⟨true, false⟩ ∧
      (processFeedPages twoPageOracle (fun _ => none) "u" historyWithA endedState 500
          none).feedFetches = 2 ∧
      (processFeedPages twoPageOracle (fun _ => none) "u" historyWithA endedState 500
          none).reachedEnd = false := by
  refine ⟨rfl, ?_, ?_, ?_⟩ <;>
    simp [processFeedPages, feedLoop, processGames, processGame, extractDuelGamesFromFeed,
      isCompetitiveDuel, tokenTruthy, oldestBeforeCutoff, twoPageOracle, historyWithA,
      endedState, timeDesc]

/-- Witness for C1's amended theorem at a concrete input: the match happens
on the initial page (index 0) and the pass returns `reachedEnd = true`. -/
theorem processFeedPages_known_game_stop_witness :
    (processFeedPages
        { initial := some ⟨[FeedEntry.leaf 5 ⟨"Duels", some "StandardDuels", "A"⟩],
            some "t1" ⟩, page := fun _ => none }
        (fun _ => none) "u" historyWithA endedState 500 none).pageLogs.length = 0 + 1 ∧
      (processFeedPages
        { initial := some ⟨[FeedEntry.leaf 5 ⟨"Duels", some "StandardDuels", "A"⟩],
            some "t1" ⟩, page := fun _ => none }
        (fun _ => none) "u" historyWithA endedState 500 none).feedFetches = 0 + 1 ∧
      (0 = 0 →
        (processFeedPages
          { initial := some ⟨[FeedEntry.leaf 5 ⟨"Duels", some "StandardDuels", "A"⟩],
              some "t1" ⟩, page := fun _ => none }
          (fun _ => none) "u" historyWithA endedState 500 none).reachedEnd = true) ∧
      (0 ≠ 0 →
        (processFeedPages
          { initial := some ⟨[FeedEntry.leaf 5 ⟨"Duels", some "StandardDuels", "A"⟩],
              some "t1" ⟩, page := fun _ => none }
          (fun _ => none) "u" historyWithA endedState 500 none).reachedEnd = false) :=
  processFeedPages_known_game_stop
    { initial := some ⟨[FeedEntry.leaf 5 ⟨"Duels", some "StandardDuels", "A"⟩], some "t1" ⟩,
      page := fun _ => none }
    (fun _ => none) "u" historyWithA endedState 500 none rfl 0 ⟨true, false⟩
    (by simp [processFeedPages, processGames, processGame, extractDuelGamesFromFeed,
      isCompetitiveDuel, tokenTruthy, oldestBeforeCutoff, historyWithA, endedState, timeDesc])
    rfl

lemma feedLoop_cutoff_stops (oracle : FeedOracle) (fetchDuel : String → Option DuelResponse)
    (userId : String) (maxPages : Nat) (cutoff : Option Nat) (ended : Bool)
    (token : Option String) (pages : Nat) (found newData : Bool)
    (hist : RatingHistory) (ids : List String) :
    ∀ (k : Nat) (L : PageLog),
      (feedLoop oracle fetchDuel userId maxPages cutoff ended token pages found newData
          hist ids).pageLogs[k]? = some L →
      L.pastCutoff = true →
      (feedLoop oracle fetchDuel userId maxPages cutoff ended token pages found newData
          hist ids).pageLogs.length = k + 1 ∧
        (feedLoop oracle fetchDuel userId maxPages cutoff ended token pages found newData
          hist ids).feedFetches = k + 1 ∧
        (feedLoop oracle fetchDuel userId maxPages cutoff ended token pages found newData
          hist ids).reachedEnd = false := by
  induction token, pages, found, newData, hist, ids using feedLoop.induct oracle fetchDuel
    userId maxPages cutoff ended with
  | case1 token pages found newData hist ids hguard hbrk =>
    intro k L hlog hpast
    rw [feedLoop_break_found oracle fetchDuel userId maxPages cutoff ended token pages found
      newData hist ids hguard hbrk] at hlog
    simp at hlog
  | case2 token pages found newData hist ids hguard hbrk hfd =>
    intro k L hlog hpast
    have hb : (found && ended) = false := by simpa using hbrk
    rw [feedLoop_fetch_fail oracle fetchDuel userId maxPages cutoff ended token pages found
      newData hist ids hguard hb hfd] at hlog
    simp at hlog
  | case3 token pages found newData hist ids hguard hbrk feedData hfd pr hstop =>
    intro k L hlog hpast
    have hb : (found && ended) = false := by simpa using hbrk
    rw [feedLoop_found_stop oracle fetchDuel userId maxPages cutoff ended token pages found
      newData hist ids feedData hguard hb hfd hstop] at hlog ⊢
    cases k with
    | zero => simp
    | succ n => simp at hlog
  | case4 token pages found newData hist ids hguard hbrk feedData hfd pr hstop hcut =>
    intro k L hlog hpast
    have hb : (found && ended) = false := by simpa using hbrk
    have hs3 : ((processGames fetchDuel userId feedData.entries hist
        (some ids)).foundExistingGame && ended) = false := by simpa using hstop
    rw [feedLoop_cutoff_stop oracle fetchDuel userId maxPages cutoff ended token pages found
      newData hist ids feedData hguard hb hfd hs3 hcut] at hlog ⊢
    cases k with
    | zero => simp
    | succ n => simp at hlog
  | case5 token pages found newData hist ids hguard hbrk feedData hfd pr hstop hcut hend =>
    intro k L hlog hpast
    have hb : (found && ended) = false := by simpa using hbrk
    have hs3 : ((processGames fetchDuel userId feedData.entries hist
        (some ids)).foundExistingGame && ended) = false := by simpa using hstop
    have hc : oldestBeforeCutoff (processGames fetchDuel userId feedData.entries hist
        (some ids)).hist cutoff = false := by simpa using hcut
    rw [feedLoop_end_of_feed oracle fetchDuel userId maxPages cutoff ended token pages found
      newData hist ids feedData hguard hb hfd hs3 hc hend] at hlog
    cases k with
    | zero =>
      simp only [List.getElem?_cons_zero, Option.some_inj] at hlog
      rw [← hlog] at hpast
      simp [hc] at hpast
    | succ n => simp at hlog
  | case6 token pages found newData hist ids hguard hbrk feedData hfd pr nd2 hstop hcut hend ih =>
    intro k L hlog hpast
    have hb : (found && ended) = false := by simpa using hbrk
    have hs3 : ((processGames fetchDuel userId feedData.entries hist
        (some ids)).foundExistingGame && ended) = false := by simpa using hstop
    have hc : oldestBeforeCutoff (processGames fetchDuel userId feedData.entries hist
        (some ids)).hist cutoff = false := by simpa using hcut
    have ht : tokenTruthy feedData.paginationToken = true := by simpa using hend
    rw [feedLoop_continue oracle fetchDuel userId maxPages cutoff ended token pages found
      newData hist ids feedData hguard hb hfd hs3 hc ht] at hlog ⊢
    cases k with
    | zero =>
      simp only [List.getElem?_cons_zero, Option.some_inj] at hlog
      rw [← hlog] at hpast
      simp [hc] at hpast
    | succ n =>
      simp only [List.getElem?_cons_succ] at hlog
      obtain ⟨e1, e2, e3⟩ := ih n L hlog hpast
      refine ⟨?_, ?_, e3⟩
      · simp [e1]
      · simp [e2]
  | case7 token pages found newData hist ids hguard =>
    intro k L hlog hpast
    rw [feedLoop_exit oracle fetchDuel userId maxPages cutoff ended token pages found
      newData hist ids hguard] at hlog
    simp at hlog

/-- The pagination token of the initial feed page, when that page loaded. -/
def initialToken (o : FeedOracle) : Option String :=
  match o.initial with
  | none => none
  | some f => f.paginationToken

/-- C5 (amended): with an active cutoff date, whenever the `overall`
sequence persisted after some processed page starts with a point older than
the cutoff, `processFeedPages` stops with that page — it is the last page
fetched and processed. It reports `reachedEnd = false` except in one case:
the cutoff is already crossed after the initial page and that page also has
no pagination token or triggers the known-game rule with persisted `ended`,
in which case the earlier rule wins and `reachedEnd = true`. -/
theorem processFeedPages_cutoff_stop (oracle : FeedOracle)
    (fetchDuel : String → Option DuelResponse) (userId : String) (hist0 : RatingHistory)
    (state : BackfillState) (maxPages : Nat) (c : Nat) :
    ∀ (k : Nat) (L : PageLog),
      (processFeedPages oracle fetchDuel userId hist0 state maxPages (some c)).pageLogs[k]?
        = some L →
      L.pastCutoff = true →
      (processFeedPages oracle fetchDuel userId hist0 state maxPages (some c)).pageLogs.length
          = k + 1 ∧
        (processFeedPages oracle fetchDuel userId hist0 state maxPages (some c)).feedFetches
          = k + 1 ∧
        (processFeedPages oracle fetchDuel userId hist0 state maxPages (some c)).reachedEnd
          = (decide (k = 0) && (!(tokenTruthy (initialToken oracle))
              || (L.found && state.ended))) := by
  intro k L hlog hpast
  cases ho : oracle.initial with
  | none =>
    rw [processFeedPages_init_fail oracle fetchDuel userId hist0 state maxPages (some c) ho]
      at hlog
    simp at hlog
  | some f =>
    have hit : initialToken oracle = f.paginationToken := by
      simp [initialToken, ho]
    cases ht : tokenTruthy f.paginationToken with
    | false =>
      rw [processFeedPages_first_end oracle fetchDuel userId hist0 state maxPages (some c) f
        ho ht] at hlog ⊢
      cases k with
      | zero => simp [hit, ht]
      | succ n => simp at hlog
    | true =>
      cases hf : ((processGames fetchDuel userId f.entries hist0
          (some (hist0.overall.map (fun g => g.gameId)))).foundExistingGame
            && state.ended) with
      | true =>
        rw [processFeedPages_first_known oracle fetchDuel userId hist0 state maxPages (some c)
          f ho ht hf] at hlog ⊢
        cases k with
        | zero =>
          simp only [List.getElem?_cons_zero, Option.some_inj] at hlog
          subst hlog
          refine ⟨by simp, by simp, ?_⟩
          simp [hit, ht, hf]
        | succ n => simp at hlog
      | false =>
        cases hc : oldestBeforeCutoff (processGames fetchDuel userId f.entries hist0
            (some (hist0.overall.map (fun g => g.gameId)))).hist (some c) with
        | true =>
          rw [processFeedPages_first_cutoff oracle fetchDuel userId hist0 state maxPages
            (some c) f ho ht hf hc] at hlog ⊢
          cases k with
          | zero =>
            simp only [List.getElem?_cons_zero, Option.some_inj] at hlog
            subst hlog
            refine ⟨by simp, by simp, ?_⟩
            simp [hit, ht, hf]
          | succ n => simp at hlog
        | false =>
          rw [processFeedPages_enter_loop oracle fetchDuel userId hist0 state maxPages
            (some c) f ho ht hf hc] at hlog ⊢
          cases k with
          | zero =>
            simp only [List.getElem?_cons_zero, Option.some_inj] at hlog
            rw [← hlog] at hpast
            simp [hc] at hpast
          | succ n =>
            simp only [List.getElem?_cons_succ] at hlog
            obtain ⟨e1, e2, e3⟩ := feedLoop_cutoff_stops oracle fetchDuel userId maxPages
              (some c) state.ended f.paginationToken 0
              (processGames fetchDuel userId f.entries hist0
                (some (hist0.overall.map (fun g => g.gameId)))).foundExistingGame
              (processGames fetchDuel userId f.entries hist0
                (some (hist0.overall.map (fun g => g.gameId)))).newDataAdded
              (processGames fetchDuel userId f.entries hist0
                (some (hist0.overall.map (fun g => g.gameId)))).hist
              (processGames fetchDuel userId f.entries hist0
                (some (hist0.overall.map (fun g => g.gameId)))).ids
              n L hlog hpast
            refine ⟨by simp [e1], by simp [e2], by simp [e3]⟩

/-- C5 (counterexample): with `backfillFullHistory = false` semantics (an
active cutoff of 100) and the oldest persisted `overall` point at timestamp
0, a first page that also matches a known game while `ended = true` makes
the pass stop with `reachedEnd = true` — the known-game rule precedes the
cutoff rule — although the page returned a pagination token and the claim
requires `reachedEnd = false`. -/
theorem processFeedPages_cutoff_counterexample :
    (processFeedPages
        { initial := some ⟨[FeedEntry.leaf 5 ⟨"Duels", some "StandardDuels", "A"⟩],
            some "t1" ⟩, page := fun _ => none }
        (fun _ => none) "u" historyWithA endedState 500 (some 100)).pageLogs[0]?
      = some ⟨true, true⟩ ∧
      (processFeedPages
        { initial := some ⟨[FeedEntry.leaf 5 ⟨"Duels", some "StandardDuels", "A"⟩],
            some "t1" ⟩, page := fun _ => none }
        (fun _ => none) "u" historyWithA endedState 500 (some 100)).reachedEnd = true := by
  constructor <;>
    simp [processFeedPages, processGames, processGame, extractDuelGamesFromFeed,
      isCompetitiveDuel, tokenTruthy, oldestBeforeCutoff, historyWithA, endedState, timeDesc]

/-- Witness for C5's amended theorem at a concrete input: the cutoff is
crossed after the first page, which has a token and no known-game match, so
the pass stops at that page with `reachedEnd = false`. -/
theorem processFeedPages_cutoff_stop_witness :
    (processFeedPages { initial := some ⟨[], some "t1" ⟩, page := fun _ => none }
        (fun _ => none) "u" historyWithA endedState 500 (some 100)).pageLogs.length = 0 + 1 ∧
      (processFeedPages { initial := some ⟨[], some "t1" ⟩, page := fun _ => none }
        (fun _ => none) "u" historyWithA endedState 500 (some 100)).feedFetches = 0 + 1 ∧
      (processFeedPages { initial := some ⟨[], some "t1" ⟩, page := fun _ => none }
        (fun _ => none) "u" historyWithA endedState 500 (some 100)).reachedEnd
        = (decide ((0 : Nat) = 0) && (!(tokenTruthy (initialToken
            { initial := some ⟨[], some "t1" ⟩, page := fun _ => none }))
          || ((false : Bool) && endedState.ended))) :=
  processFeedPages_cutoff_stop { initial := some ⟨[], some "t1" ⟩, page := fun _ => none }
    (fun _ => none) "u" historyWithA endedState 500 100 0 ⟨false, true⟩
    (by simp [processFeedPages, processGames, processGame, extractDuelGamesFromFeed,
      tokenTruthy, oldestBeforeCutoff, historyWithA, endedState])
    rfl

/-! ## Termination and page cap (C9) -/

lemma feedLoop_bounds (oracle : FeedOracle) (fetchDuel : String → Option DuelResponse)
    (userId : String) (maxPages : Nat) (cutoff : Option Nat) (ended : Bool)
    (token : Option String) (pages : Nat) (found newData : Bool)
    (hist : RatingHistory) (ids : List String) (hp : pages ≤ maxPages) :
    pages ≤ (feedLoop oracle fetchDuel userId maxPages cutoff ended token pages found
        newData hist ids).pagesProcessed ∧
      (feedLoop oracle fetchDuel userId maxPages cutoff ended token pages found
        newData hist ids).pagesProcessed ≤ maxPages ∧
      (feedLoop oracle fetchDuel userId maxPages cutoff ended token pages found
          newData hist ids).feedFetches + pages ≤
        (feedLoop oracle fetchDuel userId maxPages cutoff ended token pages found
          newData hist ids).pagesProcessed := by
  induction token, pages, found, newData, hist, ids using feedLoop.induct oracle fetchDuel
    userId maxPages cutoff ended with
  | case1 token pages found newData hist ids hguard hbrk =>
    rw [feedLoop_break_found oracle fetchDuel userId maxPages cutoff ended token pages found
      newData hist ids hguard hbrk]
    dsimp only
    omega
  | case2 token pages found newData hist ids hguard hbrk hfd =>
    have hb : (found && ended) = false := by simpa using hbrk
    rw [feedLoop_fetch_fail oracle fetchDuel userId maxPages cutoff ended token pages found
      newData hist ids hguard hb hfd]
    have := hguard.2
    dsimp only
    omega
  | case3 token pages found newData hist ids hguard hbrk feedData hfd pr hstop =>
    have hb : (found && ended) = false := by simpa using hbrk
    rw [feedLoop_found_stop oracle fetchDuel userId maxPages cutoff ended token pages found
      newData hist ids feedData hguard hb hfd hstop]
    have := hguard.2
    dsimp only
    omega
  | case4 token pages found newData hist ids hguard hbrk feedData hfd pr hstop hcut =>
    have hb : (found && ended) = false := by simpa using hbrk
    have hs3 : ((processGames fetchDuel userId feedData.entries hist
        (some ids)).foundExistingGame && ended) = false := by simpa using hstop
    rw [feedLoop_cutoff_stop oracle fetchDuel userId maxPages cutoff ended token pages found
      newData hist ids feedData hguard hb hfd hs3 hcut]
    have := hguard.2
    dsimp only
    omega
  | case5 token pages found newData hist ids hguard hbrk feedData hfd pr hstop hcut hend =>
    have hb : (found && ended) = false := by simpa using hbrk
    have hs3 : ((processGames fetchDuel userId feedData.entries hist
        (some ids)).foundExistingGame && ended) = false := by simpa using hstop
    have hc : oldestBeforeCutoff (processGames fetchDuel userId feedData.entries hist
        (some ids)).hist cutoff = false := by simpa using hcut
    rw [feedLoop_end_of_feed oracle fetchDuel userId maxPages cutoff ended token pages found
      newData hist ids feedData hguard hb hfd hs3 hc hend]
    have := hguard.2
    dsimp only
    omega
  | case6 token pages found newData hist ids hguard hbrk feedData hfd pr nd2 hstop hcut hend ih =>
    have hb : (found && ended) = false := by simpa using hbrk
    have hs3 : ((processGames fetchDuel userId feedData.entries hist
        (some ids)).foundExistingGame && ended) = false := by simpa using hstop
    have hc : oldestBeforeCutoff (processGames fetchDuel userId feedData.entries hist
        (some ids)).hist cutoff = false := by simpa using hcut
    have ht : tokenTruthy feedData.paginationToken = true := by simpa using hend
    rw [feedLoop_continue oracle fetchDuel userId maxPages cutoff ended token pages found
      newData hist ids feedData hguard hb hfd hs3 hc ht]
    have hlt := hguard.2
    have hpr : processGames fetchDuel userId feedData.entries hist (some ids) = pr := rfl
    rw [hpr]
    have hnd : (newData || pr.newDataAdded) = nd2 := rfl
    rw [hnd]
    obtain ⟨e1, e2, e3⟩ := ih hlt
    dsimp only
    omega
  | case7 token pages found newData hist ids hguard =>
    rw [feedLoop_exit oracle fetchDuel userId maxPages cutoff ended token pages found
      newData hist ids hguard]
    dsimp only
    omega

/-- C9 (amended): `processFeedPages` terminates (it is a total function of
its oracles), its incrementing loop-page counter never exceeds the
configured safety cap, and the total number of feed pages fetched is at most
the counter plus one — the initial page plus at most `maxPages` loop pages,
i.e. at most `maxPages + 1` fetches in all, not `maxPages`. -/
theorem processFeedPages_page_cap (oracle : FeedOracle)
    (fetchDuel : String → Option DuelResponse) (userId : String) (hist0 : RatingHistory)
    (state : BackfillState) (maxPages : Nat) (cutoff : Option Nat) :
    (processFeedPages oracle fetchDuel userId hist0 state maxPages cutoff).pagesProcessed
        ≤ maxPages ∧
      (processFeedPages oracle fetchDuel userId hist0 state maxPages cutoff).feedFetches
        ≤ (processFeedPages oracle fetchDuel userId hist0 state maxPages cutoff).pagesProcessed
          + 1 := by
  cases ho : oracle.initial with
  | none =>
    rw [processFeedPages_init_fail oracle fetchDuel userId hist0 state maxPages cutoff ho]
    dsimp only
    omega
  | some f =>
    cases ht : tokenTruthy f.paginationToken with
    | false =>
      rw [processFeedPages_first_end oracle fetchDuel userId hist0 state maxPages cutoff f
        ho ht]
      dsimp only
      omega
    | true =>
      cases hf : ((processGames fetchDuel userId f.entries hist0
          (some (hist0.overall.map (fun g => g.gameId)))).foundExistingGame
            && state.ended) with
      | true =>
        rw [processFeedPages_first_known oracle fetchDuel userId hist0 state maxPages cutoff
          f ho ht hf]
        dsimp only
        omega
      | false =>
        cases hc : oldestBeforeCutoff (processGames fetchDuel userId f.entries hist0
            (some (hist0.overall.map (fun g => g.gameId)))).hist cutoff with
        | true =>
          rw [processFeedPages_first_cutoff oracle fetchDuel userId hist0 state maxPages
            cutoff f ho ht hf hc]
          dsimp only
          omega
        | false =>
          rw [processFeedPages_enter_loop oracle fetchDuel userId hist0 state maxPages
            cutoff f ho ht hf hc]
          obtain ⟨e1, e2, e3⟩ := feedLoop_bounds oracle fetchDuel userId maxPages cutoff
            state.ended f.paginationToken 0
            (processGames fetchDuel userId f.entries hist0
              (some (hist0.overall.map (fun g => g.gameId)))).foundExistingGame
            (processGames fetchDuel userId f.entries hist0
              (some (hist0.overall.map (fun g => g.gameId)))).newDataAdded
            (processGames fetchDuel userId f.entries hist0
              (some (hist0.overall.map (fun g => g.gameId)))).hist
            (processGames fetchDuel userId f.entries hist0
              (some (hist0.overall.map (fun g => g.gameId)))).ids
            (Nat.zero_le maxPages)
          dsimp only
          omega

/-- The empty starting history. -/
def emptyHistory : RatingHistory := { overall := [], moving := [], noMove := [], nmpz := [] }

/-- An endless synthetic feed: every page is empty and returns the constant
cursor "t". -/
def endlessOracle : FeedOracle :=
  { initial := some ⟨[], some "t"⟩, page := fun _ => some ⟨[], some "t"⟩ }

/-- C9 (counterexample): with the safety cap configured to 1 and an endless
feed, the pass fetches 2 feed pages — the initial page plus one loop page —
exceeding the cap, so the number of feed pages fetched is not bounded by the
configured cap itself. -/
theorem processFeedPages_cap_counterexample :
    (processFeedPages endlessOracle (fun _ => none) "u" emptyHistory
        { lastLimitDays := 0, lastSyncTimestamp := none, ended := false } 1
        none).feedFetches = 2 ∧
      ¬((processFeedPages endlessOracle (fun _ => none) "u" emptyHistory
        { lastLimitDays := 0, lastSyncTimestamp := none, ended := false } 1
        none).feedFetches ≤ 1) ∧
      (processFeedPages endlessOracle (fun _ => none) "u" emptyHistory
        { lastLimitDays := 0, lastSyncTimestamp := none, ended := false } 1
        none).pagesProcessed = 1 := by
  refine ⟨?_, ?_, ?_⟩ <;>
    simp [processFeedPages, feedLoop, processGames, processGame, extractDuelGamesFromFeed,
      tokenTruthy, oldestBeforeCutoff, endlessOracle, emptyHistory, timeDesc]

/-! ## Rate-limited request executor (`executeRequest`, C7/C8) -/

/-- The outcome of one HTTP attempt, as classified by the
`GM_xmlhttpRequest` callbacks: a response with a status code and parsed
body, a network error, or a timeout. -/
inductive HttpOutcome (α : Type) where
  | resp (code : Nat) (body : α)
  | netError
  | timeout

/-- `RATE_LIMIT_MAX_DELAY` from `src/lib/api.ts`: the cap on the shared
rate-limit penalty, in milliseconds. -/
def RATE_LIMIT_MAX_DELAY : Nat := 15000

/-- Embeds the 429 handler of `executeRequest`:
`rateLimitDelay = Math.min(RATE_LIMIT_MAX_DELAY, (rateLimitDelay || 2000) * 2)`.
A zero penalty is replaced by 2000 before doubling. -/
def bump429 (p : Nat) : Nat :=
  min RATE_LIMIT_MAX_DELAY ((if p = 0 then 2000 else p) * 2)

/-- Embeds the cooldown at the top of `processRequestQueue`: each queue
cycle a positive `rateLimitDelay` drops by 100ms, floored at zero
(`Math.max(0, rateLimitDelay - 100)`; `Nat` subtraction saturates). -/
def queueCooldown (p : Nat) : Nat :=
  if 0 < p then p - 100 else p

/-- The observable outcome of one `executeRequest` call: the resolved value,
how many attempts were made, and the shared penalty afterwards. -/
structure ExecResult (α : Type) where
  result : Option α
  attempts : Nat
  penalty : Nat

/-- Embeds the `for (let i = 0; i < retries; i++)` retry loop of
`executeRequest`. `outcome j` is the oracle for attempt `j`; `fuel` counts
the remaining loop iterations and equals `retries - i` at every call, so the
`fuel = 0` exit coincides exactly with the loop guard `i < retries` failing
(the final `return null` of the source). A 2xx response resolves the parsed
body; a 429 doubles the shared penalty via `bump429` and retries unless this
was the last attempt; a 5xx, network error or timeout retries without a
penalty bump; any other status resolves `null` at once without retrying. -/
def executeRequestGo {α : Type} (outcome : Nat → HttpOutcome α) (retries : Nat) :
    Nat → Nat → Nat → Nat → ExecResult α
  | 0, i, _, pen => ⟨none, i, pen⟩
  | fuel + 1, i, retryDelay, pen =>
    match outcome i with
    | HttpOutcome.resp code body =>
      if 200 ≤ code ∧ code < 300 then ⟨some body, i + 1, pen⟩
      else if code = 429 then
        if i = retries - 1 then ⟨none, i + 1, bump429 pen⟩
        else executeRequestGo outcome retries fuel (i + 1) (retryDelay * 2) (bump429 pen)
      else if 500 ≤ code then
        if i = retries - 1 then ⟨none, i + 1, pen⟩
        else executeRequestGo outcome retries fuel (i + 1) (retryDelay * 2) pen
      else ⟨none, i + 1, pen⟩
    | HttpOutcome.netError =>
      if i = retries - 1 then ⟨none, i + 1, pen⟩
      else executeRequestGo outcome retries fuel (i + 1) (retryDelay * 2) pen
    | HttpOutcome.timeout =>
      if i = retries - 1 then ⟨none, i + 1, pen⟩
      else executeRequestGo outcome retries fuel (i + 1) (retryDelay * 2) pen

/-- Embeds `executeRequest` (defaults in the source: `retries = 3`,
`retryDelay = 1000`): run the retry loop from attempt 0. -/
def executeRequest {α : Type} (outcome : Nat → HttpOutcome α) (retries retryDelay pen : Nat) :
    ExecResult α :=
  executeRequestGo outcome retries retries 0 retryDelay pen

/-- An outcome the source treats as retryable: a 429, a 5xx, a network error
or a timeout. -/
def retryableOutcome {α : Type} : HttpOutcome α → Bool
  | HttpOutcome.resp code _ => decide (¬(200 ≤ code ∧ code < 300) ∧ (code = 429 ∨ 500 ≤ code))
  | HttpOutcome.netError => true
  | HttpOutcome.timeout => true

lemma go_retryable_step {α : Type} (outcome : Nat → HttpOutcome α) (retries fuel i rd pen : Nat)
    (hretry : retryableOutcome (outcome i) = true) (hlast : i ≠ retries - 1) :
    ∃ pen2, executeRequestGo outcome retries (fuel + 1) i rd pen
      = executeRequestGo outcome retries fuel (i + 1) (rd * 2) pen2 := by
  cases ho : outcome i with
  | resp code body =>
    rw [ho] at hretry
    simp only [retryableOutcome, decide_eq_true_eq] at hretry
    obtain ⟨hno2xx, hcase⟩ := hretry
    rcases hcase with h429 | h5xx
    · refine ⟨bump429 pen, ?_⟩
      simp [executeRequestGo, ho, hno2xx, h429, hlast]
    · have h429 : ¬(code = 429) := by omega
      refine ⟨pen, ?_⟩
      simp [executeRequestGo, ho, hno2xx, h429, h5xx, hlast]
  | netError =>
    exact ⟨pen, by simp [executeRequestGo, ho, hlast]⟩
  | timeout =>
    exact ⟨pen, by simp [executeRequestGo, ho, hlast]⟩

lemma go_all_retryable {α : Type} (outcome : Nat → HttpOutcome α) (retries : Nat) :
    ∀ fuel i rd pen, fuel + i = retries →
      (∀ j, i ≤ j → j < retries → retryableOutcome (outcome j) = true) →
      (executeRequestGo outcome retries fuel i rd pen).result = none ∧
        (executeRequestGo outcome retries fuel i rd pen).attempts = retries := by
  intro fuel
  induction fuel with
  | zero =>
    intro i rd pen hfi hall
    simp only [executeRequestGo]
    exact ⟨by trivial, by omega⟩
  | succ fuel ih =>
    intro i rd pen hfi hall
    have hi : i < retries := by omega
    have hretry := hall i (Nat.le_refl i) hi
    by_cases hlast : i = retries - 1
    · have hfuel0 : fuel = 0 := by omega
      subst hfuel0
      subst hlast
      cases ho : outcome (retries - 1) with
      | resp code body =>
        rw [ho] at hretry
        simp only [retryableOutcome, decide_eq_true_eq] at hretry
        obtain ⟨hno2xx, hcase⟩ := hretry
        rcases hcase with h429 | h5xx
        · constructor <;> simp [executeRequestGo, ho, hno2xx, h429] <;> omega
        · have h429 : ¬(code = 429) := by omega
          constructor <;> simp [executeRequestGo, ho, hno2xx, h429, h5xx] <;> omega
      | netError => constructor <;> simp [executeRequestGo, ho] <;> omega
      | timeout => constructor <;> simp [executeRequestGo, ho] <;> omega
    · obtain ⟨pen2, hstep⟩ := go_retryable_step outcome retries fuel i rd pen hretry hlast
      rw [hstep]
      exact ih (i + 1) (rd * 2) pen2 (by omega)
        (fun j hj1 hj2 => hall j (by omega) hj2)

lemma go_decisive {α : Type} (outcome : Nat → HttpOutcome α) (retries : Nat) :
    ∀ fuel i rd pen, fuel + i = retries →
      ∀ k code b, i ≤ k → k < retries →
      (∀ j, i ≤ j → j < k → retryableOutcome (outcome j) = true) →
      outcome k = HttpOutcome.resp code b →
      ((200 ≤ code ∧ code < 300) →
        (executeRequestGo outcome retries fuel i rd pen).result = some b ∧
          (executeRequestGo outcome retries fuel i rd pen).attempts = k + 1) ∧
      ((¬(200 ≤ code ∧ code < 300) ∧ code ≠ 429 ∧ code < 500) →
        (executeRequestGo outcome retries fuel i rd pen).result = none ∧
          (executeRequestGo outcome retries fuel i rd pen).attempts = k + 1) := by
  intro fuel
  induction fuel with
  | zero =>
    intro i rd pen hfi k code b hik hk hall ho
    exfalso
    omega
  | succ fuel ih =>
    intro i rd pen hfi k code b hik hk hall ho
    by_cases hik0 : i = k
    · subst hik0
      constructor
      · intro h2xx
        constructor <;> simp [executeRequestGo, ho, h2xx]
      · intro ⟨hno2xx, h429, h5xx⟩
        have hlt : ¬(500 ≤ code) := by omega
        constructor <;> simp [executeRequestGo, ho, hno2xx, h429, hlt]
    · have hikk : i < k := by omega
      have hretry := hall i (Nat.le_refl i) hikk
      have hlast : i ≠ retries - 1 := by omega
      obtain ⟨pen2, hstep⟩ := go_retryable_step outcome retries fuel i rd pen hretry hlast
      rw [hstep]
      exact ih (i + 1) (rd * 2) pen2 (by omega) k code b (by omega) hk
        (fun j hj1 hj2 => hall j (by omega) hj2) ho

/-- C7: outcome classification of the executor. For every attempt oracle
(one entry per URL fetch attempt): a 2xx response — reached after only
retryable outcomes — resolves the parsed body; a non-2xx status other than
429 and below 500 (e.g. 404) resolves `null` at once, with no further
attempt; and when every attempt up to the retry count yields a retryable
outcome (429, 5xx, network error or timeout), the call makes exactly
`retries` attempts (default 3) and returns `null` instead of throwing. -/
theorem executeRequest_classification {α : Type} (outcome : Nat → HttpOutcome α)
    (retries retryDelay pen : Nat) :
    (∀ i code b, i < retries → (∀ j, j < i → retryableOutcome (outcome j) = true) →
      outcome i = HttpOutcome.resp code b → 200 ≤ code → code < 300 →
      (executeRequest outcome retries retryDelay pen).result = some b ∧
        (executeRequest outcome retries retryDelay pen).attempts = i + 1) ∧
    (∀ i code b, i < retries → (∀ j, j < i → retryableOutcome (outcome j) = true) →
      outcome i = HttpOutcome.resp code b → ¬(200 ≤ code ∧ code < 300) → code ≠ 429 →
      code < 500 →
      (executeRequest outcome retries retryDelay pen).result = none ∧
        (executeRequest outcome retries retryDelay pen).attempts = i + 1) ∧
    ((∀ j, j < retries → retryableOutcome (outcome j) = true) →
      (executeRequest outcome retries retryDelay pen).result = none ∧
        (executeRequest outcome retries retryDelay pen).attempts = retries) := by
  refine ⟨?_, ?_, ?_⟩
  · intro i code b hi hall ho h1 h2
    exact ((go_decisive outcome retries retries 0 retryDelay pen (by omega) i code b
      (Nat.zero_le i) hi (fun j _ hj => hall j hj) ho).1 ⟨h1, h2⟩)
  · intro i code b hi hall ho hno2xx h429 h5xx
    exact ((go_decisive outcome retries retries 0 retryDelay pen (by omega) i code b
      (Nat.zero_le i) hi (fun j _ hj => hall j hj) ho).2 ⟨hno2xx, h429, h5xx⟩)
  · intro hall
    exact go_all_retryable outcome retries retries 0 retryDelay pen (by omega)
      (fun j _ hj => hall j hj)

/-- Witness for C7 at a concrete input: attempt 0 times out, attempt 1 is a
500, attempt 2 is a 200 with body 42 — the call resolves 42 in 3 attempts. -/
theorem executeRequest_classification_witness :
    (executeRequest (fun i => if i = 0 then HttpOutcome.timeout
        else if i = 1 then HttpOutcome.resp 500 (41 : Nat)
        else HttpOutcome.resp 200 42) 3 1000 0).result = some 42 ∧
      (executeRequest (fun i => if i = 0 then HttpOutcome.timeout
        else if i = 1 then HttpOutcome.resp 500 (41 : Nat)
        else HttpOutcome.resp 200 42) 3 1000 0).attempts = 2 + 1 :=
  (executeRequest_classification (fun i => if i = 0 then HttpOutcome.timeout
      else if i = 1 then HttpOutcome.resp 500 (41 : Nat)
      else HttpOutcome.resp 200 42) 3 1000 0).1
    2 200 42 (by decide)
    (by
      intro j hj
      interval_cases j <;> decide)
    rfl (by decide) (by decide)

/-- C8: backoff growth and decay. Starting from a reachable penalty (zero,
or at least 2000ms from an earlier 429) that is within the 15000ms cap, a
429 bump never decreases the penalty, leaves it at least 2000ms, and never
exceeds the 15000ms cap — so consecutive 429s produce a monotonically
non-decreasing penalty — and each queue-processing cycle decreases a
positive penalty by exactly 100ms, saturating at zero. -/
theorem rateLimit_growth_decay (p : Nat) (hcap : p ≤ RATE_LIMIT_MAX_DELAY)
    (hreach : p = 0 ∨ 2000 ≤ p) :
    p ≤ bump429 p ∧ 2000 ≤ bump429 p ∧ bump429 p ≤ RATE_LIMIT_MAX_DELAY ∧
      (0 < p → queueCooldown p = p - 100) ∧ queueCooldown p ≤ p := by
  rcases hreach with rfl | h2000
  · refine ⟨?_, ?_, ?_, ?_, ?_⟩ <;> simp [bump429, queueCooldown, RATE_LIMIT_MAX_DELAY]
  · have hp0 : ¬(p = 0) := by omega
    simp only [bump429, queueCooldown, RATE_LIMIT_MAX_DELAY, hp0, if_false] at *
    refine ⟨?_, ?_, ?_, ?_, ?_⟩ <;> first
      | omega
      | (intro h; split <;> omega)
      | (split <;> omega)

/-- Witness for C8 at the concrete penalty 2000ms: the bump doubles it to
4000ms and a queue cycle would lower it to 1900ms. -/
theorem rateLimit_growth_decay_witness :
    (2000 : Nat) ≤ bump429 2000 ∧ 2000 ≤ bump429 2000 ∧
      bump429 2000 ≤ RATE_LIMIT_MAX_DELAY ∧
      ((0 : Nat) < 2000 → queueCooldown 2000 = 2000 - 100) ∧ queueCooldown 2000 ≤ 2000 :=
  rateLimit_growth_decay 2000 (by decide) (Or.inr (by decide))

/-! ## Sync state update (`syncRatingHistory`, C2) -/

/-- The sync-relevant user settings. -/
structure SyncSettings where
  backfillFullHistory : Bool
  backfillDays : Nat
  deriving Repr

/-- Milliseconds per day, for the cutoff-date computation. -/
def msPerDay : Nat := 86400000

/-- Embeds `syncRatingHistory` from `src/lib/api.ts` (the pure data flow of
the non-error path): compute the cutoff when not syncing full history, run
`processFeedPages` with the default page cap, and write the new
`BackfillState` — `lastLimitDays` is the 9999 sentinel for full history,
`lastSyncTimestamp` is now, and `ended` is `reachedEnd` for a backfill pass
and `reachedEnd ? true : previousEnded` for an update-check pass. -/
def syncRatingHistory (oracle : FeedOracle) (fetchDuel : String → Option DuelResponse)
    (userId : String) (hist0 : RatingHistory) (prev : BackfillState)
    (settings : SyncSettings) (isBackfill : Bool) (now : Nat) :
    SyncPassResult × BackfillState :=
  let cutoff : Option Nat :=
    if settings.backfillFullHistory then none
    else some (now - settings.backfillDays * msPerDay)
  let r := processFeedPages oracle fetchDuel userId hist0 prev defaultMaxPages cutoff
  (r,
    { lastLimitDays := if settings.backfillFullHistory then 9999 else settings.backfillDays
      lastSyncTimestamp := some now
      ended := if isBackfill then r.reachedEnd
        else (if r.reachedEnd then true else prev.ended) })

/-- Embeds `checkForUpdates`: an update-check pass (`isBackfill = false`)
returning whether new data was added. -/
def checkForUpdates (oracle : FeedOracle) (fetchDuel : String → Option DuelResponse)
    (userId : String) (hist0 : RatingHistory) (prev : BackfillState)
    (settings : SyncSettings) (now : Nat) : Bool × BackfillState :=
  let rs := syncRatingHistory oracle fetchDuel userId hist0 prev settings false now
  (rs.1.newDataAdded, rs.2)

/-- C2 (counterexample): a backfill pass (`isBackfill = true`) whose initial
feed fetch fails returns `reachedEnd = false` and writes `ended = false`
even though the previously persisted `ended` flag was true — the written
flag differs from `reachedEnd || previousEnded` and stickiness is lost. -/
theorem syncState_ended_counterexample :
    ({ lastLimitDays := 30, lastSyncTimestamp := some 5, ended := true } : BackfillState).ended
        = true ∧
      (syncRatingHistory { initial := none, page := fun _ => none } (fun _ => none) "u"
          emptyHistory { lastLimitDays := 30, lastSyncTimestamp := some 5, ended := true }
          { backfillFullHistory := true, backfillDays := 30 } true 1000).2.ended = false ∧
      ((syncRatingHistory { initial := none, page := fun _ => none } (fun _ => none) "u"
          emptyHistory { lastLimitDays := 30, lastSyncTimestamp := some 5, ended := true }
          { backfillFullHistory := true, backfillDays := 30 } true 1000).1.reachedEnd
        || ({ lastLimitDays := 30, lastSyncTimestamp := some 5, ended := true }
              : BackfillState).ended) = true := by
  refine ⟨rfl, ?_, ?_⟩ <;>
    simp [syncRatingHistory, processFeedPages, defaultMaxPages, emptyHistory]

/-- C2 (amended): the `BackfillState` written at the end of a completed pass
has `lastSyncTimestamp = now`, `lastLimitDays` equal to the 9999 sentinel
for full history and the configured day window otherwise, and
`ended = reachedEnd || previousEnded` for an update-check pass — so a
previously true `ended` stays true there — while a backfill pass writes
`ended = reachedEnd`, which can reset a previously true flag when the pass
stops early. -/
theorem syncState_ended_update_rule (oracle : FeedOracle)
    (fetchDuel : String → Option DuelResponse) (userId : String) (hist0 : RatingHistory)
    (prev : BackfillState) (settings : SyncSettings) (isBackfill : Bool) (now : Nat) :
    (syncRatingHistory oracle fetchDuel userId hist0 prev settings isBackfill now).2.ended
        = (if isBackfill
            then (syncRatingHistory oracle fetchDuel userId hist0 prev settings isBackfill
              now).1.reachedEnd
            else ((syncRatingHistory oracle fetchDuel userId hist0 prev settings isBackfill
              now).1.reachedEnd || prev.ended)) ∧
      (isBackfill = false → prev.ended = true →
        (syncRatingHistory oracle fetchDuel userId hist0 prev settings isBackfill
          now).2.ended = true) ∧
      (syncRatingHistory oracle fetchDuel userId hist0 prev settings isBackfill
          now).2.lastSyncTimestamp = some now ∧
      (syncRatingHistory oracle fetchDuel userId hist0 prev settings isBackfill
          now).2.lastLimitDays
        = (if settings.backfillFullHistory then 9999 else settings.backfillDays) := by
  refine ⟨?_, ?_, rfl, rfl⟩
  · cases isBackfill <;>
      cases hr : (syncRatingHistory oracle fetchDuel userId hist0 prev settings false
          now).1.reachedEnd <;>
      simp [syncRatingHistory, defaultMaxPages] at hr ⊢ <;>
      simp [hr]
  · intro hb hp
    subst hb
    cases hr : (processFeedPages oracle fetchDuel userId hist0 prev defaultMaxPages
        (if settings.backfillFullHistory then none
          else some (now - settings.backfillDays * msPerDay))).reachedEnd <;>
      simp [syncRatingHistory, hr, hp]

/-- Witness for C2's amended theorem at a concrete input: an update-check
pass whose initial fetch fails keeps a previously true `ended` flag true. -/
theorem syncState_ended_update_rule_witness :
    (syncRatingHistory { initial := none, page := fun _ => none } (fun _ => none) "u"
        emptyHistory { lastLimitDays := 30, lastSyncTimestamp := some 5, ended := true }
        { backfillFullHistory := false, backfillDays := 30 } false 1000).2.ended = true :=
  (syncState_ended_update_rule { initial := none, page := fun _ => none } (fun _ => none) "u"
      emptyHistory { lastLimitDays := 30, lastSyncTimestamp := some 5, ended := true }
      { backfillFullHistory := false, backfillDays := 30 } false 1000).2.1 rfl rfl

lemma extract_eq_collect_filter (l : List FeedEntry) :
    extractDuelGamesFromFeed l =
      (collectLeafActivities l).filter (fun a => isCompetitiveDuel a.payload) := by
  induction l using extractDuelGamesFromFeed.induct with
  | case1 => simp [extractDuelGamesFromFeed, collectLeafActivities]
  | case2 nested rest ih1 ih2 =>
      simp [extractDuelGamesFromFeed, collectLeafActivities, ih1, ih2, List.filter_append]
  | case3 time payload rest ih =>
      by_cases h : isCompetitiveDuel payload <;>
        simp [extractDuelGamesFromFeed, collectLeafActivities, ih, h]
  | case4 rest ih => simpa [extractDuelGamesFromFeed, collectLeafActivities] using ih
  | case5 rest ih => simpa [extractDuelGamesFromFeed, collectLeafActivities] using ih
  | case6 rest ih => simpa [extractDuelGamesFromFeed, collectLeafActivities] using ih
  | case7 t rest ih => simpa [extractDuelGamesFromFeed, collectLeafActivities] using ih

/-- C6 (counterexample): the claim's predicate, taken from the spec's words,
admits a payload whose `competitiveGameMode` is the empty string, but the
source's truthiness test rejects it, so the extractor's output differs from
the spec's description on a one-leaf feed. -/
theorem extract_spec_counterexample :
    extractDuelGamesFromFeed [FeedEntry.leaf 0 ⟨"Duels", some "", "g1"⟩] ≠
      specExtract [FeedEntry.leaf 0 ⟨"Duels", some "", "g1"⟩] := by
  simp [extractDuelGamesFromFeed, specExtract, collectLeafActivities, isCompetitiveDuel,
    specRelevant]

/-- C6 (amended): `extractDuelGamesFromFeed` returns exactly the type-6 leaf
events — at any nesting depth inside type-7 containers — whose parsed payload
has `gameMode == "Duels"` and a `competitiveGameMode` that is present,
non-empty and not `"None"`, flattened into a single list in traversal order;
no other entry contributes an output element. -/
theorem extract_eq_qualifying_leaves (entries : List FeedEntry) :
    extractDuelGamesFromFeed entries =
      (collectLeafActivities entries).filter (fun a => amendedRelevant a.payload) :=
  extract_eq_collect_filter entries

end Guesslytics
